import Mathlib

/-!
# Verification of the OXRS I/O handler engines

Shallow embedding of the two per-channel state-machine engines of the
OXRS-IO-IOHandler-ESP32-LIB repository:

* the Input Event Engine (`OXRS_Input.cpp` / `OXRS_Input.h`): debounce,
  multi-click and hold detection for buttons, quadrature rotary decoding and
  4-wire security-sensor classification;
* the Output Control Engine (`OXRS_Output.cpp` / `OXRS_Output.h`): command
  dispatch with interlock delays and timer auto-off.

Machine integers are modelled as `Nat` with explicit truncation (`% 2^w`,
`&&& mask`) exactly where the C storage or arithmetic truncates.  Array
accesses whose C counterpart would be out of bounds (undefined behaviour)
are modelled by `Option`-returning functions that yield `none` there.
-/

namespace OXRS_Input

/-! ## Constants from `OXRS_Input.h` -/

def BUTTON : Nat := 0
def CONTACT : Nat := 1
def PRESS : Nat := 2
def ROTARY : Nat := 3
def SECURITY : Nat := 4
def SWITCH : Nat := 5
def TOGGLE : Nat := 6

def IS_HIGH : Nat := 0
def DEBOUNCE_LOW : Nat := 1
def IS_LOW : Nat := 2
def DEBOUNCE_HIGH : Nat := 3
def AWAIT_MULTI : Nat := 4

def NO_EVENT : Nat := 0
def LOW_EVENT : Nat := 10
def HIGH_EVENT : Nat := 11
def HOLD_EVENT : Nat := 12
def TAMPER_EVENT : Nat := 13
def SHORT_EVENT : Nat := 14
def FAULT_EVENT : Nat := 15

/-- Modelled from the spec: the numeric value of `RELEASE_EVENT` comes from a
header revision of `OXRS_Input.h` that is not in the sources (the `.cpp` uses
the constant, the available header predates it).  The spec only requires "a
distinct RELEASE_EVENT code for button release-after-hold", so we pick the
first code distinct from `NO_EVENT`, the click counts `1..5` and the event
codes `10..15`. -/
def RELEASE_EVENT : Nat := 16

def BUTTON_DEBOUNCE_LOW_MS : Nat := 15
def BUTTON_DEBOUNCE_HIGH_MS : Nat := 30
def ROTARY_DEBOUNCE_LOW_MS : Nat := 15
def ROTARY_DEBOUNCE_HIGH_MS : Nat := 30
def OTHER_DEBOUNCE_LOW_MS : Nat := 50
def OTHER_DEBOUNCE_HIGH_MS : Nat := 100
def BUTTON_MULTI_CLICK_MS : Nat := 200
def BUTTON_HOLD_MS : Nat := 500
def BUTTON_MAX_CLICKS : Nat := 5

/-- `_getDebounceLowTime` from `OXRS_Input.cpp`. -/
def getDebounceLowTime (ty : Nat) : Nat :=
  if ty = BUTTON then BUTTON_DEBOUNCE_LOW_MS
  else if ty = ROTARY then ROTARY_DEBOUNCE_LOW_MS
  else OTHER_DEBOUNCE_LOW_MS

/-- `_getDebounceHighTime` from `OXRS_Input.cpp`. -/
def getDebounceHighTime (ty : Nat) : Nat :=
  if ty = BUTTON then BUTTON_DEBOUNCE_HIGH_MS
  else if ty = ROTARY then ROTARY_DEBOUNCE_HIGH_MS
  else OTHER_DEBOUNCE_HIGH_MS

/-! ## Per-channel debounce state machine

One channel's runtime data: the 4-bit `state` nibble and 4-bit `clicks`
nibble of `inputData_t`, and the channel's `_eventTime` entry (a `uint16_t`,
hence the `% 65536` accumulator updates). -/

structure ChanData where
  state : Nat
  clicks : Nat
  eventTime : Nat
deriving DecidableEq

/-- One `_update` iteration for a single non-ROTARY, non-SECURITY channel
(the final `else` branch of `OXRS_Input::_update`, lines 348-452).
`delta` is the elapsed-milliseconds delta added to `_eventTime` before the
state machine runs; `v` is the channel's effective value
(`_getValue = bit XOR invert`), `true` = HIGH/inactive, `false` =
LOW/active.  Returns the new channel data and the entry written to
`event[i]` (`NO_EVENT` = 0 when nothing is reported). -/
def stepSwitch (ty : Nat) (c : ChanData) (delta : Nat) (v : Bool) : ChanData × Nat :=
  let t := (c.eventTime + delta) % 65536
  if c.state = IS_HIGH then
    -- clicks are cleared on every pass while stable-inactive
    if v = false then (⟨DEBOUNCE_LOW, 0, 0⟩, NO_EVENT)
    else (⟨IS_HIGH, 0, t⟩, NO_EVENT)
  else if c.state = DEBOUNCE_LOW then
    if v = true then (⟨IS_HIGH, c.clicks, 0⟩, NO_EVENT)
    else if t > getDebounceLowTime ty then
      (⟨IS_LOW, c.clicks, 0⟩, if ty ≠ BUTTON then LOW_EVENT else NO_EVENT)
    else (⟨DEBOUNCE_LOW, c.clicks, t⟩, NO_EVENT)
  else if c.state = IS_LOW then
    if v = true then (⟨DEBOUNCE_HIGH, c.clicks, 0⟩, NO_EVENT)
    else if ty = BUTTON ∧ t > BUTTON_HOLD_MS then
      if c.clicks ≠ HOLD_EVENT then (⟨IS_LOW, HOLD_EVENT, t⟩, HOLD_EVENT)
      else (⟨IS_LOW, c.clicks, t⟩, NO_EVENT)
    else (⟨IS_LOW, c.clicks, t⟩, NO_EVENT)
  else if c.state = DEBOUNCE_HIGH then
    if v = false then (⟨IS_LOW, c.clicks, 0⟩, NO_EVENT)
    else if t > getDebounceHighTime ty then
      if ty = BUTTON then
        if c.clicks = HOLD_EVENT then (⟨IS_HIGH, c.clicks, 0⟩, RELEASE_EVENT)
        else (⟨AWAIT_MULTI, min BUTTON_MAX_CLICKS (c.clicks + 1), 0⟩, NO_EVENT)
      else if ty ≠ PRESS then (⟨IS_HIGH, c.clicks, 0⟩, HIGH_EVENT)
      else (⟨IS_HIGH, c.clicks, 0⟩, NO_EVENT)
    else (⟨DEBOUNCE_HIGH, c.clicks, t⟩, NO_EVENT)
  else if c.state = AWAIT_MULTI then
    if v = false then (⟨DEBOUNCE_LOW, c.clicks, 0⟩, NO_EVENT)
    else if t > BUTTON_MULTI_CLICK_MS then (⟨IS_HIGH, c.clicks, t⟩, c.clicks)
    else (⟨AWAIT_MULTI, c.clicks, t⟩, NO_EVENT)
  else (⟨c.state, c.clicks, t⟩, NO_EVENT)

/-- Iterated `stepSwitch` over a list of `(delta, value)` samples, collecting
the per-sample `event[i]` entries. -/
def stepTrace (ty : Nat) (c : ChanData) : List (Nat × Bool) → ChanData × List Nat
  | [] => (c, [])
  | s :: rest =>
    let r := stepSwitch ty c s.1 s.2
    let rr := stepTrace ty r.1 rest
    (rr.1, r.2 :: rr.2)

/-- One press/release cycle of a button as a sample trace: the press is seen
`g` ms after the previous sample, held through a debounce tick of `p` ms,
released, and the release confirmed by a debounce tick of `q` ms. -/
def clickPress (g p q : Nat) : List (Nat × Bool) :=
  [(g, false), (p, false), (1, true), (q, true)]

/-- Repeated press/release cycles, one per entry of `gs`; `gs` lists the gap
between each debounced release and the following press. -/
def clickCycles (p q : Nat) : List Nat → List (Nat × Bool)
  | [] => []
  | g :: gs => clickPress g p q ++ clickCycles p q gs

/-- A full multi-click scenario: a first press (arriving `a` ms after the
previous sample), `gs.length` further press/release cycles, and a final
quiet period of `t > 200` ms that lets the multi-click window expire. -/
def multiClickTrace (a p q t : Nat) (gs : List Nat) : List (Nat × Bool) :=
  clickPress a p q ++ (clickCycles p q gs ++ [(t, true)])

/-- A press-hold-release scenario: press, debounce for `p` ms, stay pressed
through a tick of `h > 500` ms (the hold onset) and then through the further
pressed ticks `ds`, release, and confirm the release with a tick of
`q > 30` ms. -/
def holdTrace (p h q : Nat) (ds : List Nat) : List (Nat × Bool) :=
  (1, false) :: (p, false) :: (h, false) ::
    (ds.map (fun d => (d, false)) ++ [(1, true), (q, true)])

/-! ## Security sensor classification

`_getSecurityState` from `OXRS_Input.cpp`, lines 213-252.  The four booleans
are the raw `bitRead` values of the group's channels CH1..CH4 (`true` = HIGH
= 1); `invert` is the invert flag of the group's 4th channel.  The result is
one of the internal state constants reused as a security-state enum. -/

def getSecurityState (b1 b2 b3 b4 : Bool) (invert : Bool) : Nat :=
  -- NORMAL: CH1 HIGH, CH2 LOW, CH3 HIGH, CH4 LOW
  if b1 = true ∧ b2 = false ∧ b3 = true ∧ b4 = false then
    if invert then IS_LOW else IS_HIGH
  -- ALARM: CH1 HIGH, CH2 LOW, CH3 LOW, CH4 LOW
  else if b1 = true ∧ b2 = false ∧ b3 = false ∧ b4 = false then
    if invert then IS_HIGH else IS_LOW
  -- TAMPER: CH1 LOW, CH2 HIGH, CH3 LOW, CH4 LOW
  else if b1 = false ∧ b2 = true ∧ b3 = false ∧ b4 = false then
    DEBOUNCE_LOW
  -- SHORT: CH1 HIGH, CH2 LOW, CH3 HIGH, CH4 HIGH
  else if b1 = true ∧ b2 = false ∧ b3 = true ∧ b4 = true then
    DEBOUNCE_HIGH
  -- any other state is considered a fault
  else AWAIT_MULTI

/-- `_getSecurityEvent` from `OXRS_Input.cpp`, lines 254-273. -/
def getSecurityEvent (s : Nat) : Nat :=
  if s = IS_HIGH then HIGH_EVENT
  else if s = IS_LOW then LOW_EVENT
  else if s = DEBOUNCE_LOW then TAMPER_EVENT
  else if s = DEBOUNCE_HIGH then SHORT_EVENT
  else FAULT_EVENT

/-- The SECURITY branch of `OXRS_Input::_update` (lines 325-347) once a full
quad of values has been collected: classify, and emit an event only when the
classified state differs from the stored one.  `prev` is the stored state
nibble of the group's 4th channel; the result is the new stored state and the
`event[]` entry for that channel. -/
def securityQuadStep (prev : Nat) (b1 b2 b3 b4 : Bool) (inv : Bool) : Nat × Nat :=
  let s := getSecurityState b1 b2 b3 b4 inv
  if prev ≠ s then (s, getSecurityEvent s) else (prev, NO_EVENT)

/-! ## Rotary (quadrature) decoding

The `rotaryState` and `rotaryEvent` tables from `OXRS_Input.h` (lines 62-97
of the available revision), written as functions of the stored state nibble
and the 2-bit encoder sample.  Indices outside the 7x4 table would be
out-of-bounds reads in C; they are unreachable from `ROT_START` (the reset
value of the state nibble), and the catch-all rows below are never consulted
by any theorem. -/

def ROT_START : Nat := 0
def ROT_CW_FINAL : Nat := 1
def ROT_CW_BEGIN : Nat := 2
def ROT_CW_NEXT : Nat := 3
def ROT_CCW_BEGIN : Nat := 4
def ROT_CCW_FINAL : Nat := 5
def ROT_CCW_NEXT : Nat := 6

def rotaryState (s e : Nat) : Nat :=
  match s, e with
  -- ROT_START:     {ROT_START,     ROT_CW_BEGIN,   ROT_CCW_BEGIN,  ROT_START}
  | 0, 0 => 0 | 0, 1 => 2 | 0, 2 => 4 | 0, 3 => 0
  -- ROT_CW_FINAL:  {ROT_CW_NEXT,   ROT_START,      ROT_CW_FINAL,   ROT_START}
  | 1, 0 => 3 | 1, 1 => 0 | 1, 2 => 1 | 1, 3 => 0
  -- ROT_CW_BEGIN:  {ROT_CW_NEXT,   ROT_CW_BEGIN,   ROT_START,      ROT_START}
  | 2, 0 => 3 | 2, 1 => 2 | 2, 2 => 0 | 2, 3 => 0
  -- ROT_CW_NEXT:   {ROT_CW_NEXT,   ROT_CW_BEGIN,   ROT_CW_FINAL,   ROT_START}
  | 3, 0 => 3 | 3, 1 => 2 | 3, 2 => 1 | 3, 3 => 0
  -- ROT_CCW_BEGIN: {ROT_CCW_NEXT,  ROT_START,      ROT_CCW_BEGIN,  ROT_START}
  | 4, 0 => 6 | 4, 1 => 0 | 4, 2 => 4 | 4, 3 => 0
  -- ROT_CCW_FINAL: {ROT_CCW_NEXT,  ROT_CCW_FINAL,  ROT_START,      ROT_START}
  | 5, 0 => 6 | 5, 1 => 5 | 5, 2 => 0 | 5, 3 => 0
  -- ROT_CCW_NEXT:  {ROT_CCW_NEXT,  ROT_CCW_FINAL,  ROT_CCW_BEGIN,  ROT_START}
  | 6, 0 => 6 | 6, 1 => 5 | 6, 2 => 4 | 6, 3 => 0
  | _, _ => 0

def rotaryEventTbl (s e : Nat) : Nat :=
  match s, e with
  -- ROT_START
  | 0, 0 => 0 | 0, 1 => 0 | 0, 2 => 0 | 0, 3 => 0
  -- ROT_CW_FINAL: event LOW_EVENT on input 3
  | 1, 0 => 0 | 1, 1 => 0 | 1, 2 => 0 | 1, 3 => LOW_EVENT
  -- ROT_CW_BEGIN
  | 2, 0 => 0 | 2, 1 => 0 | 2, 2 => 0 | 2, 3 => 0
  -- ROT_CW_NEXT
  | 3, 0 => 0 | 3, 1 => 0 | 3, 2 => 0 | 3, 3 => 0
  -- ROT_CCW_BEGIN
  | 4, 0 => 0 | 4, 1 => 0 | 4, 2 => 0 | 4, 3 => 0
  -- ROT_CCW_FINAL: event HIGH_EVENT on input 3
  | 5, 0 => 0 | 5, 1 => 0 | 5, 2 => 0 | 5, 3 => HIGH_EVENT
  -- ROT_CCW_NEXT
  | 6, 0 => 0 | 6, 1 => 0 | 6, 2 => 0 | 6, 3 => 0
  | _, _ => 0

/-- The ROTARY branch of `OXRS_Input::_update` (lines 305-324) once both
values of a pair have been collected.  `v0` and `v1` are the pair's effective
values (`rotaryValue[0]`, `rotaryValue[1]`); the encoder sample is
`rotaryValue[1] << 1 | rotaryValue[0]`.  The event table is consulted before
the state table updates the stored state, both on the old state. -/
def rotaryPairStep (s : Nat) (v0 v1 : Bool) : Nat × Nat :=
  let enc := (if v1 then 2 else 0) + (if v0 then 1 else 0)
  (rotaryState s enc, rotaryEventTbl s enc)

/-- Iterated `rotaryPairStep` over a list of `(v0, v1)` samples, collecting
the emitted `event[]` entries. -/
def rotaryTrace (s : Nat) : List (Bool × Bool) → Nat × List Nat
  | [] => (s, [])
  | p :: rest =>
    let r := rotaryPairStep s p.1 p.2
    let rr := rotaryTrace r.1 rest
    (rr.1, r.2 :: rr.2)

/-! ## Input engine configuration storage and setters

`OXRS_Input` owns `uint8_t _type[8]` (two 4-bit type nibbles per byte),
`uint16_t _invert`, `uint16_t _disabled` (the `_disabled` member appears in
`OXRS_Input.cpp`; it is declared in the same missing header revision as
`RELEASE_EVENT`), and per-channel `inputData_t _state[16]` /
`uint16_t _eventTime[16]`.  The packed `_state` byte is modelled as its two
nibbles `stateN` / `clicksN`. -/

structure InputEngine where
  typeBytes : Fin 8 → Nat
  invertBits : Nat
  disabledBits : Nat
  stateN : Fin 16 → Nat
  clicksN : Fin 16 → Nat
  eventTime : Fin 16 → Nat

/-- `OXRS_Input::setType` (lines 43-55).  Writes `_type[input / 2]` and
`_state[input].data.state`; both are out-of-bounds accesses (undefined
behaviour, modelled as `none`) when `input >= 16`.  No index validation is
performed by the source. -/
def setType (e : InputEngine) (input ty : Nat) : Option InputEngine :=
  if h : input < 16 then
    let index : Fin 8 := ⟨input / 2, by omega⟩
    let bits := (input % 2) * 4
    let mask := 255 ^^^ ((15 <<< bits) &&& 255)
    some { e with
      typeBytes := Function.update e.typeBytes index
        ((e.typeBytes index &&& mask) ||| ((ty <<< bits) &&& 255)),
      stateN := Function.update e.stateN ⟨input, h⟩ IS_HIGH }
  else none

/-- `OXRS_Input::setInvert` (lines 63-69).  The shift `0x01 << input` is an
`int` shift, undefined for `input >= 32` (modelled as `none`); for
`input < 32` the mask and the shifted value are truncated into the
`uint16_t` member, with no index validation. -/
def setInvert (e : InputEngine) (input inv : Nat) : Option InputEngine :=
  if input < 32 then
    let mask := 65535 ^^^ ((1 <<< input) &&& 65535)
    some { e with invertBits := ((e.invertBits &&& mask) ||| (inv <<< input)) &&& 65535 }
  else none

/-- `OXRS_Input::setDisabled` (lines 77-83), identical shape to `setInvert`. -/
def setDisabled (e : InputEngine) (input dis : Nat) : Option InputEngine :=
  if input < 32 then
    let mask := 65535 ^^^ ((1 <<< input) &&& 65535)
    some { e with disabledBits := ((e.disabledBits &&& mask) ||| (dis <<< input)) &&& 65535 }
  else none

/-- A concrete input engine as `begin` leaves it: every channel SWITCH
(type nibble 5, so every packed byte is 0x55 = 85), nothing inverted or
disabled, all channels stable-inactive. -/
def eIn0 : InputEngine :=
  { typeBytes := fun _ => 85
    invertBits := 0
    disabledBits := 0
    stateN := fun _ => IS_HIGH
    clicksN := fun _ => 0
    eventTime := fun _ => 0 }

end OXRS_Input

namespace OXRS_Output

/-! ## Constants from `OXRS_Output.h` -/

def OUTPUT_COUNT : Nat := 16
def RELAY_ON : Nat := 1
def RELAY_OFF : Nat := 0
def RELAY_INTERLOCK_DELAY_MS : Nat := 500
def MOTOR_INTERLOCK_DELAY_MS : Nat := 2000
def DEFAULT_TIMER_SECS : Nat := 60

def MOTOR : Nat := 0
def RELAY : Nat := 1
def TIMER : Nat := 2

/-- `2^32`, the modulus of the `uint32_t` elapsed-time accumulators. -/
def W32 : Nat := 4294967296

/-- One event delivered through the output callback:
`(id, output, type, state)`. -/
structure OEvent where
  id : Nat
  output : Nat
  otype : Nat
  state : Nat
deriving DecidableEq

/-- The output engine's configuration and state.  `typeBytes` is the packed
`uint8_t _type[8]`; `current`/`next`/`reqId` are the three bitfields of
`outputData_t` (1, 1 and 6 bits wide); `eventTime`/`delayTime` are the
`uint32_t` accumulators. -/
structure OutputEngine where
  typeBytes : Fin 8 → Nat
  interlock : Fin 16 → Nat
  timer : Fin 16 → Nat
  eventTime : Fin 16 → Nat
  delayTime : Fin 16 → Nat
  current : Fin 16 → Nat
  next : Fin 16 → Nat
  reqId : Fin 16 → Nat

/-- `OXRS_Output::getType` (lines 36-43) for an in-range output. -/
def getType (e : OutputEngine) (o : Fin 16) : Nat :=
  (e.typeBytes ⟨o.val / 2, by have h := o.isLt; omega⟩ >>> ((o.val % 2) * 4)) &&& 15

/-- `OXRS_Output::setType` (lines 45-58).  Writes `_type[output / 2]`,
`_eventTime[output]` and `_delayTime[output]`; all three are out of bounds
(undefined behaviour, modelled as `none`) when `output >= 16`.  No index
validation is performed by the source. -/
def setType (e : OutputEngine) (output ty : Nat) : Option OutputEngine :=
  if h : output < 16 then
    let index : Fin 8 := ⟨output / 2, by omega⟩
    let bits := (output % 2) * 4
    let mask := 255 ^^^ ((15 <<< bits) &&& 255)
    some { e with
      typeBytes := Function.update e.typeBytes index
        ((e.typeBytes index &&& mask) ||| ((ty <<< bits) &&& 255)),
      eventTime := Function.update e.eventTime ⟨output, h⟩ 0,
      delayTime := Function.update e.delayTime ⟨output, h⟩ 0 }
  else none

/-- `OXRS_Output::setInterlock` (lines 65-68): unchecked write to
`_interlock[output]` (a `uint8_t`), out of bounds for `output >= 16`. -/
def setInterlock (e : OutputEngine) (output il : Nat) : Option OutputEngine :=
  if h : output < 16 then
    some { e with interlock := Function.update e.interlock ⟨output, h⟩ (il % 256) }
  else none

/-- `OXRS_Output::setTimer` (lines 75-78): unchecked write to
`_timer[output]` (a `uint16_t`), out of bounds for `output >= 16`. -/
def setTimer (e : OutputEngine) (output t : Nat) : Option OutputEngine :=
  if h : output < 16 then
    some { e with timer := Function.update e.timer ⟨output, h⟩ (t % 65536) }
  else none

/-- `OXRS_Output::_updateOutput` (lines 145-162) for an in-range output:
if the requested state equals the current one, do nothing and return 0;
otherwise fire the callback (collected as an event), store the new state in
the 1-bit `current` field and return 1. -/
def updateCore (e : OutputEngine) (id : Nat) (o : Fin 16) (st : Nat) :
    OutputEngine × List OEvent × Nat :=
  if e.current o = st then (e, [], 0)
  else ({ e with current := Function.update e.current o (st % 2) },
        [⟨id, o.val, getType e o, st⟩], 1)

/-- `OXRS_Output::_delayOutput` (lines 164-173) for an in-range output:
reset the elapsed-time accumulator, set the delay and store the pending
state and request id in the 1-bit `next` and 6-bit `id` bitfields. -/
def delayCore (e : OutputEngine) (id : Nat) (o : Fin 16) (st ms : Nat) : OutputEngine :=
  { e with
    eventTime := Function.update e.eventTime o 0,
    delayTime := Function.update e.delayTime o (ms % W32),
    reqId := Function.update e.reqId o (id % 64),
    next := Function.update e.next o (st % 2) }

/-- `OXRS_Output::_getInterlockDelayMs` (lines 175-186): 2000ms for MOTOR,
500ms for RELAY and for the default case. -/
def getInterlockDelayMs (ty : Nat) : Nat :=
  if ty = MOTOR then MOTOR_INTERLOCK_DELAY_MS else RELAY_INTERLOCK_DELAY_MS

/-- `OXRS_Output::handleCommand` (lines 104-143).  Out-of-range `output`, or
an out-of-range stored interlock partner reached on the interlock path, is
an out-of-bounds access (undefined behaviour, modelled as `none`).  Returns
the new engine and the events fired synchronously by the command. -/
def handleCommand (e : OutputEngine) (id output command : Nat) :
    Option (OutputEngine × List OEvent) :=
  if h : output < 16 then
    let o : Fin 16 := ⟨output, h⟩
    let ty := getType e o
    if ty = TIMER then
      -- activate/deactivate the output as-per the command
      let r := updateCore e id o command
      if command = RELAY_ON then
        let timerMs := e.timer o * 1000
        some (delayCore r.1 id o RELAY_OFF timerMs, r.2.1)
      else
        some ({ r.1 with delayTime := Function.update r.1.delayTime o 0 }, r.2.1)
    else
      let il := e.interlock o
      if il ≠ output ∧ command = RELAY_ON then
        if hil : il < 16 then
          -- deactivate the interlocked output
          let rp := updateCore e id ⟨il, hil⟩ RELAY_OFF
          if rp.2.2 = 1 then
            -- only delay output if our interlock was triggered
            some (delayCore rp.1 id o RELAY_ON (getInterlockDelayMs ty), rp.2.1)
          else
            let r := updateCore rp.1 id o command
            some (r.1, rp.2.1 ++ r.2.1)
        else none
      else
        let r := updateCore e id o command
        some (r.1, r.2.1)
  else none

/-- One iteration of the `OXRS_Output::process` loop (lines 87-101) for
channel `i`: add the delta to the channel's `uint32_t` accumulator and, if a
delay is outstanding and exceeded, apply the stored pending state with the
stored pending id and clear the delay. -/
def processChan (e : OutputEngine) (delta : Nat) (i : Fin 16) :
    OutputEngine × List OEvent :=
  let e1 := { e with eventTime := Function.update e.eventTime i ((e.eventTime i + delta) % W32) }
  if e1.delayTime i > 0 ∧ e1.eventTime i > e1.delayTime i then
    let r := updateCore e1 (e1.reqId i) i (e1.next i)
    ({ r.1 with delayTime := Function.update r.1.delayTime i 0 }, r.2.1)
  else (e1, [])

/-- The `process` loop over an explicit list of channels (used with
`List.finRange 16`, the ascending order of the C loop). -/
def processList (e : OutputEngine) (delta : Nat) : List (Fin 16) → OutputEngine × List OEvent
  | [] => (e, [])
  | i :: is =>
    let r := processChan e delta i
    let rr := processList r.1 delta is
    (rr.1, r.2 ++ rr.2)

/-- `OXRS_Output::process` (lines 80-102).  `delta` is the `uint16_t`
difference `millis() - _lastUpdateTime` supplied by the caller's clock. -/
def process (e : OutputEngine) (delta : Nat) : OutputEngine × List OEvent :=
  processList e delta (List.finRange 16)

/-- Iterated `process` over a list of deltas, concatenating the events. -/
def processTrace (e : OutputEngine) : List Nat → OutputEngine × List OEvent
  | [] => (e, [])
  | d :: ds =>
    let r := process e d
    let rr := processTrace r.1 ds
    (rr.1, r.2 ++ rr.2)

/-- A concrete output engine: every channel RELAY (type nibble 1, each
packed byte 0x11 = 17), channels 0 and 1 interlocked with each other as in
the repository's interlock example sketch, channel 1 currently ON. -/
def eRelayPair : OutputEngine :=
  { typeBytes := fun _ => 17
    interlock := fun i => if i.val = 0 then 1 else if i.val = 1 then 0 else i.val
    timer := fun _ => DEFAULT_TIMER_SECS
    eventTime := fun _ => 0
    delayTime := fun _ => 0
    current := fun i => if i.val = 1 then 1 else 0
    next := fun _ => 0
    reqId := fun _ => 0 }

/-- A concrete output engine: every channel TIMER (type nibble 2, each
packed byte 0x22 = 34) with a 1-second timer, everything OFF and idle. -/
def eTimerBank : OutputEngine :=
  { typeBytes := fun _ => 34
    interlock := fun i => i.val
    timer := fun _ => 1
    eventTime := fun _ => 0
    delayTime := fun _ => 0
    current := fun _ => 0
    next := fun _ => 0
    reqId := fun _ => 0 }

/-- Like `eTimerBank` but with a zero-second timer duration. -/
def eTimerZero : OutputEngine :=
  { typeBytes := fun _ => 34
    interlock := fun i => i.val
    timer := fun _ => 0
    eventTime := fun _ => 0
    delayTime := fun _ => 0
    current := fun _ => 0
    next := fun _ => 0
    reqId := fun _ => 0 }

end OXRS_Output

/-! # Lemmas and theorems -/

namespace OXRS_Input

theorem stepTrace_append (ty : Nat) (c : ChanData) (l1 l2 : List (Nat × Bool)) :
    stepTrace ty c (l1 ++ l2) =
      ((stepTrace ty (stepTrace ty c l1).1 l2).1,
       (stepTrace ty c l1).2 ++ (stepTrace ty (stepTrace ty c l1).1 l2).2) := by
  induction l1 generalizing c with
  | nil => simp [stepTrace]
  | cons s rest ih => simp [stepTrace, ih]

example : stepSwitch BUTTON ⟨IS_HIGH, 3, 7⟩ 5 false = (⟨DEBOUNCE_LOW, 0, 0⟩, NO_EVENT) := by
  decide

example : stepSwitch BUTTON ⟨DEBOUNCE_LOW, 0, 0⟩ 16 false = (⟨IS_LOW, 0, 0⟩, NO_EVENT) := by
  decide

example : stepSwitch SWITCH ⟨DEBOUNCE_LOW, 0, 0⟩ 51 false = (⟨IS_LOW, 0, 0⟩, LOW_EVENT) := by
  decide

example : stepSwitch BUTTON ⟨AWAIT_MULTI, 2, 0⟩ 201 true = (⟨IS_HIGH, 2, 201⟩, 2) := by
  decide

example : getSecurityState true false true false false = IS_HIGH := by decide

example : getSecurityState true false false false false = IS_LOW := by decide

example : securityQuadStep IS_HIGH true false true false false = (IS_HIGH, NO_EVENT) := by decide

example :
    rotaryTrace ROT_START [(true, false), (false, false), (false, true), (true, true)] =
      (ROT_START, [0, 0, 0, LOW_EVENT]) := by decide

example :
    rotaryTrace ROT_START [(false, true), (false, false), (true, false), (true, true)] =
      (ROT_START, [0, 0, 0, HIGH_EVENT]) := by decide

end OXRS_Input

namespace OXRS_Output

/-! ### Frame and characterization lemmas for the process loop -/

theorem updateCore_frame (e : OutputEngine) (id : Nat) (o : Fin 16) (st : Nat) :
    (updateCore e id o st).1.typeBytes = e.typeBytes ∧
    (updateCore e id o st).1.interlock = e.interlock ∧
    (updateCore e id o st).1.timer = e.timer ∧
    (updateCore e id o st).1.eventTime = e.eventTime ∧
    (updateCore e id o st).1.delayTime = e.delayTime ∧
    (updateCore e id o st).1.next = e.next ∧
    (updateCore e id o st).1.reqId = e.reqId := by
  unfold updateCore
  split <;> simp

theorem updateCore_current_ne (e : OutputEngine) (id : Nat) (o : Fin 16) (st : Nat)
    (j : Fin 16) (hj : j ≠ o) :
    (updateCore e id o st).1.current j = e.current j := by
  unfold updateCore
  split
  · rfl
  · simp [Function.update_noteq hj]

theorem processChan_frame (e : OutputEngine) (d : Nat) (i : Fin 16) :
    (processChan e d i).1.typeBytes = e.typeBytes ∧
    (processChan e d i).1.interlock = e.interlock ∧
    (processChan e d i).1.timer = e.timer ∧
    (processChan e d i).1.next = e.next ∧
    (processChan e d i).1.reqId = e.reqId := by
  unfold processChan updateCore
  dsimp only
  split
  · split <;> simp
  · simp

theorem processChan_noFire (e : OutputEngine) (d : Nat) (i : Fin 16)
    (h : e.delayTime i = 0 ∨ (e.eventTime i + d) % W32 ≤ e.delayTime i) :
    processChan e d i =
      ({ e with eventTime := Function.update e.eventTime i ((e.eventTime i + d) % W32) }, []) := by
  unfold processChan
  dsimp only
  split
  case isTrue hc =>
    exfalso
    have h1 : e.delayTime i > 0 := hc.1
    have h2 : Function.update e.eventTime i ((e.eventTime i + d) % W32) i > e.delayTime i := hc.2
    rw [Function.update_same] at h2
    rcases h with h0 | hle
    · omega
    · omega
  case isFalse => rfl

theorem processChan_fire (e : OutputEngine) (d : Nat) (i : Fin 16)
    (h1 : 0 < e.delayTime i) (h2 : (e.eventTime i + d) % W32 > e.delayTime i)
    (h3 : e.current i ≠ e.next i) :
    processChan e d i =
      ({ e with
          eventTime := Function.update e.eventTime i ((e.eventTime i + d) % W32),
          current := Function.update e.current i (e.next i % 2),
          delayTime := Function.update e.delayTime i 0 },
       [⟨e.reqId i, i.val, getType e i, e.next i⟩]) := by
  unfold processChan
  dsimp only
  split
  case isTrue hc =>
    unfold updateCore
    split
    case isTrue hcc => exact absurd hcc h3
    case isFalse => rfl
  case isFalse hc =>
    exfalso
    apply hc
    refine ⟨h1, ?_⟩
    show Function.update e.eventTime i ((e.eventTime i + d) % W32) i > e.delayTime i
    rw [Function.update_same]
    exact h2

theorem processChan_fire_silent (e : OutputEngine) (d : Nat) (i : Fin 16)
    (h1 : 0 < e.delayTime i) (h2 : (e.eventTime i + d) % W32 > e.delayTime i)
    (h3 : e.current i = e.next i) :
    processChan e d i =
      ({ e with
          eventTime := Function.update e.eventTime i ((e.eventTime i + d) % W32),
          delayTime := Function.update e.delayTime i 0 },
       []) := by
  unfold processChan
  dsimp only
  split
  case isTrue hc =>
    unfold updateCore
    split
    case isTrue => rfl
    case isFalse hcc => exact absurd h3 hcc
  case isFalse hc =>
    exfalso
    apply hc
    refine ⟨h1, ?_⟩
    show Function.update e.eventTime i ((e.eventTime i + d) % W32) i > e.delayTime i
    rw [Function.update_same]
    exact h2

theorem processList_frame (d : Nat) (l : List (Fin 16)) (e : OutputEngine) :
    (processList e d l).1.typeBytes = e.typeBytes ∧
    (processList e d l).1.interlock = e.interlock ∧
    (processList e d l).1.timer = e.timer ∧
    (processList e d l).1.next = e.next ∧
    (processList e d l).1.reqId = e.reqId := by
  induction l generalizing e with
  | nil => simp [processList]
  | cons i is ih =>
    have hf := processChan_frame e d i
    have hi := ih (processChan e d i).1
    simp only [processList]
    exact ⟨hi.1.trans hf.1, hi.2.1.trans hf.2.1, hi.2.2.1.trans hf.2.2.1,
      hi.2.2.2.1.trans hf.2.2.2.1, hi.2.2.2.2.trans hf.2.2.2.2⟩

/-- If no channel in `l` can fire (no pending delay, or the delay not yet
exceeded), a pass of the process loop emits no events, leaves everything but
the elapsed-time accumulators unchanged, and advances each processed
channel's accumulator by the delta. -/
theorem processList_noFire (d : Nat) (l : List (Fin 16)) (e : OutputEngine)
    (hnd : l.Nodup)
    (h : ∀ i, i ∈ l → e.delayTime i = 0 ∨ (e.eventTime i + d) % W32 ≤ e.delayTime i) :
    (processList e d l).2 = [] ∧
    (processList e d l).1.delayTime = e.delayTime ∧
    (processList e d l).1.current = e.current ∧
    (∀ j, j ∉ l → (processList e d l).1.eventTime j = e.eventTime j) ∧
    (∀ j, j ∈ l → (processList e d l).1.eventTime j = (e.eventTime j + d) % W32) := by
  induction l generalizing e with
  | nil => simp [processList]
  | cons i is ih =>
    have hstep := processChan_noFire e d i (h i (List.mem_cons_self i is))
    have hnd2 : is.Nodup := (List.nodup_cons.mp hnd).2
    have hni : i ∉ is := (List.nodup_cons.mp hnd).1
    set e2 := (processChan e d i).1 with he2
    have he2eq : e2 = { e with eventTime := Function.update e.eventTime i ((e.eventTime i + d) % W32) } := by
      rw [he2, hstep]
    have h2 : ∀ j, j ∈ is → e2.delayTime j = 0 ∨ (e2.eventTime j + d) % W32 ≤ e2.delayTime j := by
      intro j hj
      have hji : j ≠ i := by
        intro hji
        exact hni (hji ▸ hj)
      rw [he2eq]
      simp only [Function.update_noteq hji]
      exact h j (List.mem_cons_of_mem i hj)
    have hi := ih e2 hnd2 h2
    have hev2 : (processChan e d i).2 = [] := by rw [hstep]
    simp only [processList]
    refine ⟨?_, ?_, ?_, ?_, ?_⟩
    · rw [hev2, hi.1]
      rfl
    · rw [hi.2.1, he2eq]
    · rw [hi.2.2.1, he2eq]
    · intro j hj
      have hji : j ≠ i := fun hx => hj (hx ▸ List.mem_cons_self i is)
      have hjis : j ∉ is := fun hx => hj (List.mem_cons_of_mem i hx)
      rw [hi.2.2.2.1 j hjis, he2eq]
      simp only [Function.update_noteq hji]
    · intro j hj
      rcases List.mem_cons.mp hj with hji | hjis
      · subst hji
        rw [hi.2.2.2.1 j hni, he2eq]
        simp only [Function.update_same]
      · have hji : j ≠ i := by
          intro hx
          exact hni (hx ▸ hjis)
        rw [hi.2.2.2.2 j hjis, he2eq]
        simp only [Function.update_noteq hji]

/-- If exactly the channel `o` can fire during a pass of the process loop
(every other channel has no pending delay), and its pending state differs
from its current one, the pass emits exactly the pending event, applies the
pending state and clears the delay. -/
theorem processList_oneFire (d : Nat) (l : List (Fin 16)) (e : OutputEngine)
    (o : Fin 16) (hnd : l.Nodup) (ho : o ∈ l)
    (hq : ∀ i, i ∈ l → i ≠ o → e.delayTime i = 0)
    (h1 : 0 < e.delayTime o) (h2 : (e.eventTime o + d) % W32 > e.delayTime o)
    (h3 : e.current o ≠ e.next o) :
    (processList e d l).2 = [⟨e.reqId o, o.val, getType e o, e.next o⟩] ∧
    (∀ j, j ∈ l → (processList e d l).1.delayTime j = if j = o then 0 else e.delayTime j) ∧
    (∀ j, j ∉ l → (processList e d l).1.delayTime j = e.delayTime j) ∧
    (processList e d l).1.current = Function.update e.current o (e.next o % 2) := by
  induction l generalizing e with
  | nil => exact absurd ho (List.not_mem_nil o)
  | cons i is ih =>
    have hnd2 : is.Nodup := (List.nodup_cons.mp hnd).2
    have hni : i ∉ is := (List.nodup_cons.mp hnd).1
    by_cases hio : i = o
    · -- the head channel fires; the rest of the pass is quiet
      subst hio
      have hstep := processChan_fire e d i h1 h2 h3
      set e2 := (processChan e d i).1 with he2
      have he2eq : e2 = { e with
          eventTime := Function.update e.eventTime i ((e.eventTime i + d) % W32),
          current := Function.update e.current i (e.next i % 2),
          delayTime := Function.update e.delayTime i 0 } := by
        rw [he2, hstep]
      have hq2 : ∀ j, j ∈ is → e2.delayTime j = 0 ∨ (e2.eventTime j + d) % W32 ≤ e2.delayTime j := by
        intro j hj
        left
        have hji : j ≠ i := by
          intro hx
          exact hni (hx ▸ hj)
        rw [he2eq]
        simp only [Function.update_noteq hji]
        exact hq j (List.mem_cons_of_mem i hj) hji
      have hrest := processList_noFire d is e2 hnd2 hq2
      simp only [processList]
      refine ⟨?_, ?_, ?_, ?_⟩
      · rw [hrest.1]
        have : (processChan e d i).2 = [⟨e.reqId i, i.val, getType e i, e.next i⟩] := by
          rw [hstep]
        rw [this]
        rfl
      · intro j hj
        rw [hrest.2.1, he2eq]
        by_cases hji : j = i
        · subst hji
          simp
        · simp [Function.update_noteq hji, hji]
      · intro j hj
        have hji : j ≠ i := fun hx => hj (hx ▸ List.mem_cons_self i is)
        rw [hrest.2.1, he2eq]
        simp only [Function.update_noteq hji]
      · rw [hrest.2.2.1, he2eq]
    · -- a quiet head channel; the firing channel is further down the list
      have hio2 : ¬(i = o) := hio
      have hstep := processChan_noFire e d i (Or.inl (hq i (List.mem_cons_self i is) hio2))
      set e2 := (processChan e d i).1 with he2
      have he2eq : e2 = { e with eventTime := Function.update e.eventTime i ((e.eventTime i + d) % W32) } := by
        rw [he2, hstep]
      have hois : o ∈ is := by
        rcases List.mem_cons.mp ho with hx | hx
        · exact absurd hx.symm hio
        · exact hx
      have hoi : o ≠ i := fun hx => hio hx.symm
      have hq2 : ∀ j, j ∈ is → j ≠ o → e2.delayTime j = 0 := by
        intro j hj hjo
        rw [he2eq]
        exact hq j (List.mem_cons_of_mem i hj) hjo
      have h1b : 0 < e2.delayTime o := by rw [he2eq]; exact h1
      have h2b : (e2.eventTime o + d) % W32 > e2.delayTime o := by
        rw [he2eq]
        simp only [Function.update_noteq hoi]
        exact h2
      have h3b : e2.current o ≠ e2.next o := by rw [he2eq]; exact h3
      have hi := ih e2 hnd2 hois hq2 h1b h2b h3b
      simp only [processList]
      have hev2 : (processChan e d i).2 = [] := by rw [hstep]
      have hfields : e2.reqId o = e.reqId o ∧ getType e2 o = getType e o ∧
          e2.next o = e.next o ∧ e2.current = e.current ∧ e2.delayTime = e.delayTime := by
        rw [he2eq]
        exact ⟨rfl, rfl, rfl, rfl, rfl⟩
      refine ⟨?_, ?_, ?_, ?_⟩
      · rw [hev2, hi.1, hfields.1, hfields.2.1, hfields.2.2.1]
        rfl
      · intro j hj
        rcases List.mem_cons.mp hj with hji | hjis
        · subst hji
          rw [hi.2.2.1 j hni, he2eq]
          simp only [if_neg hio2]
        · rw [hi.2.1 j hjis, he2eq]
      · intro j hj
        have hjis : j ∉ is := fun hx => hj (List.mem_cons_of_mem i hx)
        rw [hi.2.2.1 j hjis, he2eq]
      · rw [hi.2.2.2, hfields.2.2.1, hfields.2.2.2.1]

theorem getType_congr (e1 e2 : OutputEngine) (o : Fin 16)
    (h : e1.typeBytes = e2.typeBytes) : getType e1 o = getType e2 o := by
  unfold getType
  rw [h]

theorem process_noFire (e : OutputEngine) (d : Nat)
    (h : ∀ i, e.delayTime i = 0 ∨ (e.eventTime i + d) % W32 ≤ e.delayTime i) :
    (process e d).2 = [] ∧
    (process e d).1.delayTime = e.delayTime ∧
    (process e d).1.current = e.current ∧
    (process e d).1.next = e.next ∧
    (process e d).1.reqId = e.reqId ∧
    (process e d).1.typeBytes = e.typeBytes ∧
    (∀ j, (process e d).1.eventTime j = (e.eventTime j + d) % W32) := by
  unfold process
  have hl := processList_noFire d (List.finRange 16) e (List.nodup_finRange 16)
    (fun i _ => h i)
  have hf := processList_frame d (List.finRange 16) e
  exact ⟨hl.1, hl.2.1, hl.2.2.1, hf.2.2.2.1, hf.2.2.2.2, hf.1,
    fun j => hl.2.2.2.2 j (List.mem_finRange j)⟩

theorem process_oneFire (e : OutputEngine) (d : Nat) (o : Fin 16)
    (hq : ∀ i, i ≠ o → e.delayTime i = 0)
    (h1 : 0 < e.delayTime o) (h2 : (e.eventTime o + d) % W32 > e.delayTime o)
    (h3 : e.current o ≠ e.next o) :
    (process e d).2 = [⟨e.reqId o, o.val, getType e o, e.next o⟩] ∧
    (∀ j, (process e d).1.delayTime j = 0) ∧
    (process e d).1.current = Function.update e.current o (e.next o % 2) ∧
    (process e d).1.next = e.next ∧
    (process e d).1.reqId = e.reqId ∧
    (process e d).1.typeBytes = e.typeBytes := by
  unfold process
  have hl := processList_oneFire d (List.finRange 16) e o (List.nodup_finRange 16)
    (List.mem_finRange o) (fun i _ hio => hq i hio) h1 h2 h3
  have hf := processList_frame d (List.finRange 16) e
  refine ⟨hl.1, ?_, hl.2.2.2, hf.2.2.2.1, hf.2.2.2.2, hf.1⟩
  intro j
  rw [hl.2.1 j (List.mem_finRange j)]
  by_cases hjo : j = o
  · simp [hjo]
  · rw [if_neg hjo]
    exact hq j hjo

theorem processTrace_append (e : OutputEngine) (l1 l2 : List Nat) :
    processTrace e (l1 ++ l2) =
      ((processTrace (processTrace e l1).1 l2).1,
       (processTrace e l1).2 ++ (processTrace (processTrace e l1).1 l2).2) := by
  induction l1 generalizing e with
  | nil => simp [processTrace]
  | cons d ds ih => simp [processTrace, ih]

/-- With every delay cleared, an arbitrary sequence of process calls emits
nothing and clears no further state. -/
theorem processTrace_quiet (ds : List Nat) (e : OutputEngine)
    (hq : ∀ j, e.delayTime j = 0) :
    (processTrace e ds).2 = [] ∧
    (∀ j, (processTrace e ds).1.delayTime j = 0) ∧
    (processTrace e ds).1.current = e.current := by
  induction ds generalizing e with
  | nil => exact ⟨rfl, hq, rfl⟩
  | cons d rest ih =>
    have hstep := process_noFire e d (fun i => Or.inl (hq i))
    have hq2 : ∀ j, (process e d).1.delayTime j = 0 := by
      intro j
      rw [hstep.2.1]
      exact hq j
    have hi := ih (process e d).1 hq2
    simp only [processTrace]
    exact ⟨by rw [hstep.1, hi.1]; rfl,
      hi.2.1,
      by rw [hi.2.2, hstep.2.2.1]⟩

/-- With exactly one channel holding a pending delayed transition that is
never exceeded along the trace, nothing fires and the channel's accumulator
is exactly the sum of the deltas. -/
theorem processTrace_pending (ds : List Nat) (e : OutputEngine) (o : Fin 16)
    (D s : Nat) (hD1 : 0 < D) (hD2 : D < W32)
    (hdo : e.delayTime o = D) (hq : ∀ j, j ≠ o → e.delayTime j = 0)
    (hs : e.eventTime o = s) (hsum : s + ds.sum ≤ D) :
    (processTrace e ds).2 = [] ∧
    (processTrace e ds).1.delayTime = e.delayTime ∧
    (processTrace e ds).1.current = e.current ∧
    (processTrace e ds).1.next = e.next ∧
    (processTrace e ds).1.reqId = e.reqId ∧
    (processTrace e ds).1.typeBytes = e.typeBytes ∧
    (processTrace e ds).1.eventTime o = s + ds.sum := by
  induction ds generalizing e s with
  | nil =>
    refine ⟨rfl, rfl, rfl, rfl, rfl, rfl, ?_⟩
    show e.eventTime o = s + List.sum []
    rw [hs]
    simp
  | cons d rest ih =>
    have hsum1 : s + d ≤ D := by
      have : rest.sum ≥ 0 := Nat.zero_le _
      simp only [List.sum_cons] at hsum
      omega
    have hmod : (e.eventTime o + d) % W32 = s + d := by
      rw [hs, Nat.mod_eq_of_lt (by omega)]
    have hstep := process_noFire e d (by
      intro i
      by_cases hio : i = o
      · subst hio
        right
        rw [hmod, hdo]
        exact hsum1
      · exact Or.inl (hq i hio))
    have hdo2 : (process e d).1.delayTime o = D := by rw [hstep.2.1]; exact hdo
    have hq2 : ∀ j, j ≠ o → (process e d).1.delayTime j = 0 := by
      intro j hj
      rw [hstep.2.1]
      exact hq j hj
    have hs2 : (process e d).1.eventTime o = s + d := by
      rw [hstep.2.2.2.2.2.2 o, hmod]
    have hsum2 : s + d + rest.sum ≤ D := by
      simp only [List.sum_cons] at hsum
      omega
    have hi := ih (process e d).1 (s + d) hdo2 hq2 hs2 hsum2
    simp only [processTrace]
    refine ⟨by rw [hstep.1, hi.1]; rfl, ?_, ?_, ?_, ?_, ?_, ?_⟩
    · rw [hi.2.1, hstep.2.1]
    · rw [hi.2.2.1, hstep.2.2.1]
    · rw [hi.2.2.2.1, hstep.2.2.2.1]
    · rw [hi.2.2.2.2.1, hstep.2.2.2.2.1]
    · rw [hi.2.2.2.2.2.1, hstep.2.2.2.2.2.1]
    · rw [hi.2.2.2.2.2.2]
      simp only [List.sum_cons]
      omega

/-- The full behaviour of a single pending delayed transition: no event while
the accumulated deltas stay within the delay, exactly the stored pending
event at the first call that exceeds it, and silence afterwards. -/
theorem processTrace_pending_fire (ds ds2 : List Nat) (d : Nat)
    (e : OutputEngine) (o : Fin 16) (D s : Nat) (hD1 : 0 < D) (hD2 : D < W32)
    (hdo : e.delayTime o = D) (hq : ∀ j, j ≠ o → e.delayTime j = 0)
    (hs : e.eventTime o = s) (hsum : s + ds.sum ≤ D)
    (hfire : s + ds.sum + d > D) (hw : s + ds.sum + d < W32)
    (hchg : e.current o ≠ e.next o) :
    (processTrace e (ds ++ d :: ds2)).2 =
      [⟨e.reqId o, o.val, getType e o, e.next o⟩] ∧
    (processTrace e (ds ++ d :: ds2)).1.current o = e.next o % 2 := by
  have hpend := processTrace_pending ds e o D s hD1 hD2 hdo hq hs hsum
  set e1 := (processTrace e ds).1 with he1
  have h1 : 0 < e1.delayTime o := by rw [hpend.2.1, hdo]; exact hD1
  have h2 : (e1.eventTime o + d) % W32 > e1.delayTime o := by
    rw [hpend.2.2.2.2.2.2, hpend.2.1, hdo, Nat.mod_eq_of_lt hw]
    exact hfire
  have h3 : e1.current o ≠ e1.next o := by
    rw [hpend.2.2.1, hpend.2.2.2.1]
    exact hchg
  have hqo : ∀ i, i ≠ o → e1.delayTime i = 0 := by
    intro i hio
    rw [hpend.2.1]
    exact hq i hio
  have hfirestep := process_oneFire e1 d o hqo h1 h2 h3
  set e2 := (process e1 d).1 with he2
  have hquiet := processTrace_quiet ds2 e2 hfirestep.2.1
  have hev : (process e1 d).2 = [⟨e.reqId o, o.val, getType e o, e.next o⟩] := by
    rw [hfirestep.1, hpend.2.2.2.2.1, hpend.2.2.2.1,
      getType_congr e1 e o hpend.2.2.2.2.2.1]
  rw [processTrace_append]
  constructor
  · rw [hpend.1]
    show [] ++ (processTrace e1 (d :: ds2)).2 = _
    simp only [processTrace]
    rw [hev, hquiet.1]
    simp
  · show (processTrace e1 (d :: ds2)).1.current o = e.next o % 2
    simp only [processTrace]
    rw [hquiet.2.2, hfirestep.2.2.1]
    rw [hpend.2.2.2.1]
    simp

/-! ### Field lemmas for `updateCore`, `delayCore` and `handleCommand` -/

theorem delayCore_fields (e : OutputEngine) (id : Nat) (o : Fin 16) (st ms : Nat) :
    (delayCore e id o st ms).delayTime o = ms % W32 ∧
    (delayCore e id o st ms).eventTime o = 0 ∧
    (delayCore e id o st ms).reqId o = id % 64 ∧
    (delayCore e id o st ms).next o = st % 2 ∧
    (delayCore e id o st ms).current = e.current ∧
    (delayCore e id o st ms).typeBytes = e.typeBytes ∧
    (delayCore e id o st ms).interlock = e.interlock ∧
    (delayCore e id o st ms).timer = e.timer := by
  unfold delayCore
  refine ⟨?_, ?_, ?_, ?_, rfl, rfl, rfl, rfl⟩ <;> simp

theorem delayCore_ne (e : OutputEngine) (id : Nat) (o : Fin 16) (st ms : Nat)
    (j : Fin 16) (h : j ≠ o) :
    (delayCore e id o st ms).delayTime j = e.delayTime j ∧
    (delayCore e id o st ms).eventTime j = e.eventTime j ∧
    (delayCore e id o st ms).reqId j = e.reqId j ∧
    (delayCore e id o st ms).next j = e.next j := by
  unfold delayCore
  refine ⟨?_, ?_, ?_, ?_⟩ <;> simp [Function.update_noteq h]

theorem updateCore_changed (e : OutputEngine) (id : Nat) (o : Fin 16) (st : Nat)
    (h : e.current o ≠ st) :
    (updateCore e id o st).2.1 = [⟨id, o.val, getType e o, st⟩] ∧
    (updateCore e id o st).2.2 = 1 ∧
    (updateCore e id o st).1.current o = st % 2 := by
  unfold updateCore
  rw [if_neg h]
  refine ⟨rfl, rfl, ?_⟩
  simp

theorem updateCore_same (e : OutputEngine) (id : Nat) (o : Fin 16) (st : Nat)
    (h : e.current o = st) :
    updateCore e id o st = (e, [], 0) := by
  unfold updateCore
  rw [if_pos h]

/-- The TIMER/ON branch of `handleCommand`: apply the command, then schedule
an OFF after `getTimer(output) * 1000` milliseconds. -/
theorem handleCommand_timer_on (e : OutputEngine) (r o : Nat) (ho : o < 16)
    (hty : getType e ⟨o, ho⟩ = TIMER) :
    handleCommand e r o RELAY_ON =
      some (delayCore (updateCore e r ⟨o, ho⟩ RELAY_ON).1 r ⟨o, ho⟩ RELAY_OFF
              (e.timer ⟨o, ho⟩ * 1000),
            (updateCore e r ⟨o, ho⟩ RELAY_ON).2.1) := by
  unfold handleCommand
  rw [dif_pos ho]
  dsimp only
  rw [if_pos hty, if_pos rfl]

/-- The TIMER/OFF branch of `handleCommand`: apply the command and clear any
pending delay. -/
theorem handleCommand_timer_off (e : OutputEngine) (r o : Nat) (ho : o < 16)
    (hty : getType e ⟨o, ho⟩ = TIMER) :
    handleCommand e r o RELAY_OFF =
      some ({ (updateCore e r ⟨o, ho⟩ RELAY_OFF).1 with
                delayTime := Function.update (updateCore e r ⟨o, ho⟩ RELAY_OFF).1.delayTime
                  ⟨o, ho⟩ 0 },
            (updateCore e r ⟨o, ho⟩ RELAY_OFF).2.1) := by
  unfold handleCommand
  rw [dif_pos ho]
  dsimp only
  rw [if_pos hty, if_neg (by decide)]

/-- The interlocked-ON branch of `handleCommand` when the partner is
currently ON: the partner is forced OFF and the requested ON is delayed. -/
theorem handleCommand_interlock_on (e : OutputEngine) (r o p : Nat)
    (ho : o < 16) (hp : p < 16)
    (hil : e.interlock ⟨o, ho⟩ = p) (hne : p ≠ o)
    (hty : getType e ⟨o, ho⟩ ≠ TIMER)
    (hcurp : e.current ⟨p, hp⟩ = RELAY_ON) :
    handleCommand e r o RELAY_ON =
      some (delayCore (updateCore e r ⟨p, hp⟩ RELAY_OFF).1 r ⟨o, ho⟩ RELAY_ON
              (getInterlockDelayMs (getType e ⟨o, ho⟩)),
            (updateCore e r ⟨p, hp⟩ RELAY_OFF).2.1) := by
  unfold handleCommand
  rw [dif_pos ho]
  dsimp only
  rw [if_neg hty, hil]
  rw [if_pos ⟨hne, rfl⟩, dif_pos hp]
  have hflag : (updateCore e r ⟨p, hp⟩ RELAY_OFF).2.2 = 1 := by
    unfold updateCore
    rw [if_neg (by rw [hcurp]; decide)]
  rw [if_pos hflag]

/-- The interlocked-ON branch of `handleCommand` when the partner is already
OFF: forcing the partner OFF is a no-op, so the requested ON applies
immediately and nothing is delayed. -/
theorem handleCommand_interlock_on_partner_off (e : OutputEngine) (r o p : Nat)
    (ho : o < 16) (hp : p < 16)
    (hil : e.interlock ⟨o, ho⟩ = p) (hne : p ≠ o)
    (hty : getType e ⟨o, ho⟩ ≠ TIMER)
    (hcurp : e.current ⟨p, hp⟩ = RELAY_OFF) :
    handleCommand e r o RELAY_ON =
      some ((updateCore e r ⟨o, ho⟩ RELAY_ON).1,
            (updateCore e r ⟨o, ho⟩ RELAY_ON).2.1) := by
  unfold handleCommand
  rw [dif_pos ho]
  dsimp only
  rw [if_neg hty, hil]
  rw [if_pos ⟨hne, rfl⟩, dif_pos hp]
  have hrp : updateCore e r ⟨p, hp⟩ RELAY_OFF = (e, [], 0) :=
    updateCore_same e r ⟨p, hp⟩ RELAY_OFF hcurp
  rw [hrp]
  dsimp only
  rw [if_neg (by decide : ¬((0 : Nat) = 1))]
  simp

/-! ### Claim theorems for the Output Control Engine -/

/-- C7: for every output channel, applying a state transition
(`_updateOutput`) fires a callback and updates the stored current state if
and only if the requested state differs from the current one; commanding the
already-current state is a silent no-op, so commanding the same state twice
in a row produces exactly one event, from the first command (the second,
identical application is silent and leaves the engine unchanged). -/
theorem apply_state_iff_change (e : OutputEngine) (id : Nat) (o : Fin 16) (st : Nat)
    (hst : st < 2) :
    (e.current o = st → updateCore e id o st = (e, [], 0)) ∧
    (e.current o ≠ st →
      (updateCore e id o st).2.1 = [⟨id, o.val, getType e o, st⟩] ∧
      (updateCore e id o st).2.2 = 1 ∧
      (updateCore e id o st).1.current o = st ∧
      updateCore (updateCore e id o st).1 id o st = ((updateCore e id o st).1, [], 0)) := by
  constructor
  · intro h
    exact updateCore_same e id o st h
  · intro h
    have hc := updateCore_changed e id o st h
    have hcur : (updateCore e id o st).1.current o = st := by
      rw [hc.2.2, Nat.mod_eq_of_lt hst]
    exact ⟨hc.1, hc.2.1, hcur, updateCore_same _ id o st hcur⟩

theorem apply_state_iff_change_witness :
    (eRelayPair.current 0 = 1 → updateCore eRelayPair 9 0 1 = (eRelayPair, [], 0)) ∧
    (eRelayPair.current 0 ≠ 1 →
      (updateCore eRelayPair 9 0 1).2.1 = [⟨9, 0, getType eRelayPair 0, 1⟩] ∧
      (updateCore eRelayPair 9 0 1).2.2 = 1 ∧
      (updateCore eRelayPair 9 0 1).1.current 0 = 1 ∧
      updateCore (updateCore eRelayPair 9 0 1).1 9 0 1 =
        ((updateCore eRelayPair 9 0 1).1, [], 0)) :=
  apply_state_iff_change eRelayPair 9 0 1 (by decide)

/-- C10: a callback fired synchronously by `handleCommand` reports the
request id `r` unchanged, but the pending id stored by `_delayOutput` lives
in a 6-bit bitfield, so the callback later fired by `process` for the
delayed transition (here: the timer auto-off) reports `r % 64`. -/
theorem request_id_truncation (e : OutputEngine) (r o T : Nat) (ds : List Nat) (d : Nat)
    (ho : o < 16) (hr : r < 256)
    (hty : getType e ⟨o, ho⟩ = TIMER)
    (hT : e.timer ⟨o, ho⟩ = T) (hT1 : 1 ≤ T) (hT2 : T < 65536)
    (hcur : e.current ⟨o, ho⟩ = RELAY_OFF)
    (hq : ∀ j, j ≠ (⟨o, ho⟩ : Fin 16) → e.delayTime j = 0)
    (hd : d < 65536)
    (hsum : ds.sum ≤ T * 1000) (hfire : T * 1000 < ds.sum + d) :
    (handleCommand e r o RELAY_ON).map (fun x => x.2) =
      some [⟨r, o, TIMER, RELAY_ON⟩] ∧
    (handleCommand e r o RELAY_ON).map (fun x => x.1.reqId ⟨o, ho⟩) = some (r % 64) ∧
    (handleCommand e r o RELAY_ON).map (fun x => (processTrace x.1 (ds ++ d :: [])).2) =
      some [⟨r % 64, o, TIMER, RELAY_OFF⟩] := by
  have hHC := handleCommand_timer_on e r o ho hty
  have hne : e.current ⟨o, ho⟩ ≠ RELAY_ON := by rw [hcur]; decide
  have hu := updateCore_changed e r ⟨o, ho⟩ RELAY_ON hne
  have huf := updateCore_frame e r ⟨o, ho⟩ RELAY_ON
  have hdf := delayCore_fields (updateCore e r ⟨o, ho⟩ RELAY_ON).1 r ⟨o, ho⟩ RELAY_OFF
    (e.timer ⟨o, ho⟩ * 1000)
  have hW : T * 1000 < W32 := by unfold W32; omega
  have hE_delay : (delayCore (updateCore e r ⟨o, ho⟩ RELAY_ON).1 r ⟨o, ho⟩ RELAY_OFF
      (e.timer ⟨o, ho⟩ * 1000)).delayTime ⟨o, ho⟩ = T * 1000 := by
    rw [hdf.1, hT, Nat.mod_eq_of_lt hW]
  have hE_cur : (delayCore (updateCore e r ⟨o, ho⟩ RELAY_ON).1 r ⟨o, ho⟩ RELAY_OFF
      (e.timer ⟨o, ho⟩ * 1000)).current ⟨o, ho⟩ = 1 := by
    rw [hdf.2.2.2.2.1]
    exact hu.2.2
  have hE_q : ∀ j, j ≠ (⟨o, ho⟩ : Fin 16) →
      (delayCore (updateCore e r ⟨o, ho⟩ RELAY_ON).1 r ⟨o, ho⟩ RELAY_OFF
        (e.timer ⟨o, ho⟩ * 1000)).delayTime j = 0 := by
    intro j hj
    rw [(delayCore_ne _ r ⟨o, ho⟩ RELAY_OFF _ j hj).1, huf.2.2.2.2.1]
    exact hq j hj
  have hE_chg : (delayCore (updateCore e r ⟨o, ho⟩ RELAY_ON).1 r ⟨o, ho⟩ RELAY_OFF
      (e.timer ⟨o, ho⟩ * 1000)).current ⟨o, ho⟩ ≠
      (delayCore (updateCore e r ⟨o, ho⟩ RELAY_ON).1 r ⟨o, ho⟩ RELAY_OFF
      (e.timer ⟨o, ho⟩ * 1000)).next ⟨o, ho⟩ := by
    rw [hE_cur, hdf.2.2.2.1]
    decide
  have hW32 : W32 = 4294967296 := rfl
  have htrace := processTrace_pending_fire ds [] d _ ⟨o, ho⟩ (T * 1000) 0
    (by omega) hW hE_delay hE_q hdf.2.1 (by omega) (by omega) (by omega) hE_chg
  have hE_type : getType (delayCore (updateCore e r ⟨o, ho⟩ RELAY_ON).1 r ⟨o, ho⟩ RELAY_OFF
      (e.timer ⟨o, ho⟩ * 1000)) ⟨o, ho⟩ = TIMER := by
    rw [getType_congr _ e ⟨o, ho⟩ (by rw [hdf.2.2.2.2.2.1, huf.1])]
    exact hty
  refine ⟨?_, ?_, ?_⟩
  · rw [hHC]
    simp only [Option.map_some']
    rw [hu.1, hty]
  · rw [hHC]
    simp only [Option.map_some']
    rw [hdf.2.2.1]
  · rw [hHC]
    simp only [Option.map_some']
    rw [htrace.1, hdf.2.2.1, hE_type, hdf.2.2.2.1]
    rfl

theorem request_id_truncation_witness :
    (handleCommand eTimerBank 100 0 RELAY_ON).map (fun x => x.2) =
      some [⟨100, 0, TIMER, RELAY_ON⟩] ∧
    (handleCommand eTimerBank 100 0 RELAY_ON).map (fun x => x.1.reqId 0) =
      some (100 % 64) ∧
    (handleCommand eTimerBank 100 0 RELAY_ON).map
        (fun x => (processTrace x.1 [1001]).2) =
      some [⟨100 % 64, 0, TIMER, RELAY_OFF⟩] :=
  request_id_truncation eTimerBank 100 0 1 [] 1001 (by omega) (by omega) (by decide)
    rfl (by omega) (by omega) rfl (fun j hj => rfl) (by omega) (by decide) (by decide)

/-- C2 (amended: requires a nonzero `timerSeconds`; with `timerSeconds = 0`
the stored delay is 0, which `process` treats as "no pending transition", so
no automatic OFF ever fires — see the counterexample): commanding ON on a
TIMER channel applies the state immediately (here from OFF, so the ON event
fires), schedules an automatic OFF after `timerSeconds * 1000` ms, and
absent further commands exactly one OFF event fires, at the first process
call whose accumulated deltas exceed that duration; commanding OFF cancels
any pending auto-off. -/
theorem timer_auto_off (e : OutputEngine) (r o T : Nat) (ds ds2 : List Nat) (d : Nat)
    (e2 : OutputEngine) (r2 : Nat)
    (ho : o < 16)
    (hty : getType e ⟨o, ho⟩ = TIMER)
    (hT : e.timer ⟨o, ho⟩ = T) (hT1 : 1 ≤ T) (hT2 : T < 65536)
    (hcur : e.current ⟨o, ho⟩ = RELAY_OFF)
    (hq : ∀ j, j ≠ (⟨o, ho⟩ : Fin 16) → e.delayTime j = 0)
    (hd : d < 65536)
    (hsum : ds.sum ≤ T * 1000) (hfire : T * 1000 < ds.sum + d)
    (hty2 : getType e2 ⟨o, ho⟩ = TIMER) :
    (handleCommand e r o RELAY_ON).map (fun x => x.2) =
      some [⟨r, o, TIMER, RELAY_ON⟩] ∧
    (handleCommand e r o RELAY_ON).map
        (fun x => (x.1.current ⟨o, ho⟩, x.1.delayTime ⟨o, ho⟩, x.1.next ⟨o, ho⟩,
                   x.1.eventTime ⟨o, ho⟩)) =
      some (RELAY_ON, T * 1000, RELAY_OFF, 0) ∧
    (handleCommand e r o RELAY_ON).map (fun x => (processTrace x.1 ds).2) = some [] ∧
    (handleCommand e r o RELAY_ON).map (fun x => (processTrace x.1 (ds ++ d :: ds2)).2) =
      some [⟨r % 64, o, TIMER, RELAY_OFF⟩] ∧
    (handleCommand e2 r2 o RELAY_OFF).map (fun x => x.1.delayTime ⟨o, ho⟩) = some 0 := by
  have hHC := handleCommand_timer_on e r o ho hty
  have hne : e.current ⟨o, ho⟩ ≠ RELAY_ON := by rw [hcur]; decide
  have hu := updateCore_changed e r ⟨o, ho⟩ RELAY_ON hne
  have huf := updateCore_frame e r ⟨o, ho⟩ RELAY_ON
  have hdf := delayCore_fields (updateCore e r ⟨o, ho⟩ RELAY_ON).1 r ⟨o, ho⟩ RELAY_OFF
    (e.timer ⟨o, ho⟩ * 1000)
  have hW32 : W32 = 4294967296 := rfl
  have hW : T * 1000 < W32 := by omega
  have hE_delay : (delayCore (updateCore e r ⟨o, ho⟩ RELAY_ON).1 r ⟨o, ho⟩ RELAY_OFF
      (e.timer ⟨o, ho⟩ * 1000)).delayTime ⟨o, ho⟩ = T * 1000 := by
    rw [hdf.1, hT, Nat.mod_eq_of_lt hW]
  have hE_cur : (delayCore (updateCore e r ⟨o, ho⟩ RELAY_ON).1 r ⟨o, ho⟩ RELAY_OFF
      (e.timer ⟨o, ho⟩ * 1000)).current ⟨o, ho⟩ = 1 := by
    rw [hdf.2.2.2.2.1]
    exact hu.2.2
  have hE_q : ∀ j, j ≠ (⟨o, ho⟩ : Fin 16) →
      (delayCore (updateCore e r ⟨o, ho⟩ RELAY_ON).1 r ⟨o, ho⟩ RELAY_OFF
        (e.timer ⟨o, ho⟩ * 1000)).delayTime j = 0 := by
    intro j hj
    rw [(delayCore_ne _ r ⟨o, ho⟩ RELAY_OFF _ j hj).1, huf.2.2.2.2.1]
    exact hq j hj
  have hE_chg : (delayCore (updateCore e r ⟨o, ho⟩ RELAY_ON).1 r ⟨o, ho⟩ RELAY_OFF
      (e.timer ⟨o, ho⟩ * 1000)).current ⟨o, ho⟩ ≠
      (delayCore (updateCore e r ⟨o, ho⟩ RELAY_ON).1 r ⟨o, ho⟩ RELAY_OFF
      (e.timer ⟨o, ho⟩ * 1000)).next ⟨o, ho⟩ := by
    rw [hE_cur, hdf.2.2.2.1]
    decide
  have hpend := processTrace_pending ds _ ⟨o, ho⟩ (T * 1000) 0
    (by omega) hW hE_delay hE_q hdf.2.1 (by omega)
  have htrace := processTrace_pending_fire ds ds2 d _ ⟨o, ho⟩ (T * 1000) 0
    (by omega) hW hE_delay hE_q hdf.2.1 (by omega) (by omega) (by omega) hE_chg
  have hE_type : getType (delayCore (updateCore e r ⟨o, ho⟩ RELAY_ON).1 r ⟨o, ho⟩ RELAY_OFF
      (e.timer ⟨o, ho⟩ * 1000)) ⟨o, ho⟩ = TIMER := by
    rw [getType_congr _ e ⟨o, ho⟩ (by rw [hdf.2.2.2.2.2.1, huf.1])]
    exact hty
  refine ⟨?_, ?_, ?_, ?_, ?_⟩
  · rw [hHC]
    simp only [Option.map_some']
    rw [hu.1, hty]
  · rw [hHC]
    simp only [Option.map_some']
    rw [hE_cur, hE_delay, hdf.2.2.2.1, hdf.2.1]
    rfl
  · rw [hHC]
    simp only [Option.map_some']
    rw [hpend.1]
  · rw [hHC]
    simp only [Option.map_some']
    rw [htrace.1, hdf.2.2.1, hE_type, hdf.2.2.2.1]
    rfl
  · rw [handleCommand_timer_off e2 r2 o ho hty2]
    simp only [Option.map_some']
    show some (Function.update (updateCore e2 r2 ⟨o, ho⟩ RELAY_OFF).1.delayTime ⟨o, ho⟩ 0
      ⟨o, ho⟩) = some 0
    rw [Function.update_same]

theorem timer_auto_off_witness :
    (handleCommand eTimerBank 3 0 RELAY_ON).map (fun x => x.2) =
      some [⟨3, 0, TIMER, RELAY_ON⟩] ∧
    (handleCommand eTimerBank 3 0 RELAY_ON).map
        (fun x => (x.1.current 0, x.1.delayTime 0, x.1.next 0, x.1.eventTime 0)) =
      some (RELAY_ON, 1 * 1000, RELAY_OFF, 0) ∧
    (handleCommand eTimerBank 3 0 RELAY_ON).map (fun x => (processTrace x.1 [500]).2) =
      some [] ∧
    (handleCommand eTimerBank 3 0 RELAY_ON).map
        (fun x => (processTrace x.1 ([500] ++ 501 :: [])).2) =
      some [⟨3 % 64, 0, TIMER, RELAY_OFF⟩] ∧
    (handleCommand eTimerBank 7 0 RELAY_OFF).map (fun x => x.1.delayTime 0) = some 0 :=
  timer_auto_off eTimerBank 3 0 1 [500] [] 501 eTimerBank 7 (by omega) (by decide)
    rfl (by omega) (by omega) rfl (fun j hj => rfl) (by omega) (by decide) (by decide)
    (by decide)

/-- C2 counterexample: on a TIMER channel configured with `timerSeconds = 0`
the command ON fires the immediate ON event but stores a zero delay, which
`process` treats as "no pending delayed transition" (`_delayTime[i] > 0`
guards the check), so no automatic OFF ever fires: here the channel is still
silent 61 seconds later, although the claim promises exactly one OFF event
after `0 * 1000 = 0` ms. -/
theorem timer_zero_never_off :
    (handleCommand eTimerZero 5 0 RELAY_ON).map
        (fun x => (x.2, x.1.delayTime 0, (processTrace x.1 [1000, 60000]).2)) =
      some ([⟨5, 0, TIMER, RELAY_ON⟩], 0, []) := by
  decide

/-- C1: commanding ON on a MOTOR or RELAY channel whose interlock partner
differs from itself.  If the partner is currently ON, `handleCommand` fires
exactly the partner's immediate OFF event, forces the partner OFF, and
schedules the requested ON with the type's interlock delay (2000ms MOTOR,
500ms RELAY): process calls whose accumulated deltas stay within the delay
fire nothing, and the delayed ON callback fires at the first call beyond it
(so never earlier than the delay), carrying the 6-bit-truncated request id.
If the partner is already OFF, the requested ON applies immediately — the
ON event fires during `handleCommand` itself and no delay is scheduled. -/
theorem interlock_on_command (e : OutputEngine) (r o p : Nat) (ds : List Nat) (d : Nat)
    (ho : o < 16) (hp : p < 16)
    (hil : e.interlock ⟨o, ho⟩ = p) (hne : p ≠ o)
    (hty : getType e ⟨o, ho⟩ = MOTOR ∨ getType e ⟨o, ho⟩ = RELAY)
    (hq : ∀ j, j ≠ (⟨o, ho⟩ : Fin 16) → e.delayTime j = 0)
    (hd : d < 65536)
    (hsum : ds.sum ≤ getInterlockDelayMs (getType e ⟨o, ho⟩))
    (hfire : getInterlockDelayMs (getType e ⟨o, ho⟩) < ds.sum + d) :
    (e.current ⟨p, hp⟩ = RELAY_ON →
      (handleCommand e r o RELAY_ON).map (fun x => x.2) =
        some [⟨r, p, getType e ⟨p, hp⟩, RELAY_OFF⟩] ∧
      (handleCommand e r o RELAY_ON).map
          (fun x => (x.1.current ⟨p, hp⟩, x.1.delayTime ⟨o, ho⟩, x.1.next ⟨o, ho⟩,
                     x.1.eventTime ⟨o, ho⟩)) =
        some (RELAY_OFF, getInterlockDelayMs (getType e ⟨o, ho⟩), RELAY_ON, 0) ∧
      (handleCommand e r o RELAY_ON).map (fun x => (processTrace x.1 ds).2) = some [] ∧
      (e.current ⟨o, ho⟩ = RELAY_OFF →
        (handleCommand e r o RELAY_ON).map (fun x => (processTrace x.1 (ds ++ d :: [])).2) =
          some [⟨r % 64, o, getType e ⟨o, ho⟩, RELAY_ON⟩])) ∧
    (e.current ⟨p, hp⟩ = RELAY_OFF → e.current ⟨o, ho⟩ = RELAY_OFF →
      (handleCommand e r o RELAY_ON).map (fun x => x.2) =
        some [⟨r, o, getType e ⟨o, ho⟩, RELAY_ON⟩] ∧
      (handleCommand e r o RELAY_ON).map
          (fun x => (x.1.current ⟨o, ho⟩, x.1.delayTime ⟨o, ho⟩)) =
        some (RELAY_ON, e.delayTime ⟨o, ho⟩)) := by
  have hntimer : getType e ⟨o, ho⟩ ≠ TIMER := by
    rcases hty with h | h <;> rw [h] <;> decide
  have hD1 : 0 < getInterlockDelayMs (getType e ⟨o, ho⟩) := by
    unfold getInterlockDelayMs
    split <;> decide
  have hDle : getInterlockDelayMs (getType e ⟨o, ho⟩) ≤ 2000 := by
    unfold getInterlockDelayMs
    split <;> decide
  have hW32 : W32 = 4294967296 := rfl
  have hfinne : (⟨p, hp⟩ : Fin 16) ≠ ⟨o, ho⟩ := Fin.ne_of_val_ne hne
  have hfinne2 : (⟨o, ho⟩ : Fin 16) ≠ ⟨p, hp⟩ := Fin.ne_of_val_ne (fun hx => hne hx.symm)
  constructor
  · intro hcurp
    have hHC := handleCommand_interlock_on e r o p ho hp hil hne hntimer hcurp
    have hnep : e.current ⟨p, hp⟩ ≠ RELAY_OFF := by rw [hcurp]; decide
    have hu := updateCore_changed e r ⟨p, hp⟩ RELAY_OFF hnep
    have huf := updateCore_frame e r ⟨p, hp⟩ RELAY_OFF
    have hdf := delayCore_fields (updateCore e r ⟨p, hp⟩ RELAY_OFF).1 r ⟨o, ho⟩ RELAY_ON
      (getInterlockDelayMs (getType e ⟨o, ho⟩))
    have hE_delay : (delayCore (updateCore e r ⟨p, hp⟩ RELAY_OFF).1 r ⟨o, ho⟩ RELAY_ON
        (getInterlockDelayMs (getType e ⟨o, ho⟩))).delayTime ⟨o, ho⟩ =
        getInterlockDelayMs (getType e ⟨o, ho⟩) := by
      rw [hdf.1, Nat.mod_eq_of_lt (by omega)]
    have hE_q : ∀ j, j ≠ (⟨o, ho⟩ : Fin 16) →
        (delayCore (updateCore e r ⟨p, hp⟩ RELAY_OFF).1 r ⟨o, ho⟩ RELAY_ON
          (getInterlockDelayMs (getType e ⟨o, ho⟩))).delayTime j = 0 := by
      intro j hj
      rw [(delayCore_ne _ r ⟨o, ho⟩ RELAY_ON _ j hj).1, huf.2.2.2.2.1]
      exact hq j hj
    have hE_curp : (delayCore (updateCore e r ⟨p, hp⟩ RELAY_OFF).1 r ⟨o, ho⟩ RELAY_ON
        (getInterlockDelayMs (getType e ⟨o, ho⟩))).current ⟨p, hp⟩ = 0 := by
      rw [hdf.2.2.2.2.1]
      exact hu.2.2
    have hE_type : getType (delayCore (updateCore e r ⟨p, hp⟩ RELAY_OFF).1 r ⟨o, ho⟩ RELAY_ON
        (getInterlockDelayMs (getType e ⟨o, ho⟩))) ⟨o, ho⟩ = getType e ⟨o, ho⟩ := by
      rw [getType_congr _ e ⟨o, ho⟩ (by rw [hdf.2.2.2.2.2.1, huf.1])]
    have hpend := processTrace_pending ds _ ⟨o, ho⟩
      (getInterlockDelayMs (getType e ⟨o, ho⟩)) 0
      hD1 (by omega) hE_delay hE_q hdf.2.1 (by omega)
    refine ⟨?_, ?_, ?_, ?_⟩
    · rw [hHC]
      simp only [Option.map_some']
      rw [hu.1]
    · rw [hHC]
      simp only [Option.map_some']
      rw [hE_curp, hE_delay, hdf.2.2.2.1, hdf.2.1]
      rfl
    · rw [hHC]
      simp only [Option.map_some']
      rw [hpend.1]
    · intro hcuro
      have hE_curo : (delayCore (updateCore e r ⟨p, hp⟩ RELAY_OFF).1 r ⟨o, ho⟩ RELAY_ON
          (getInterlockDelayMs (getType e ⟨o, ho⟩))).current ⟨o, ho⟩ = 0 := by
        rw [hdf.2.2.2.2.1, updateCore_current_ne e r ⟨p, hp⟩ RELAY_OFF ⟨o, ho⟩ hfinne2]
        exact hcuro
      have hE_chg : (delayCore (updateCore e r ⟨p, hp⟩ RELAY_OFF).1 r ⟨o, ho⟩ RELAY_ON
          (getInterlockDelayMs (getType e ⟨o, ho⟩))).current ⟨o, ho⟩ ≠
          (delayCore (updateCore e r ⟨p, hp⟩ RELAY_OFF).1 r ⟨o, ho⟩ RELAY_ON
          (getInterlockDelayMs (getType e ⟨o, ho⟩))).next ⟨o, ho⟩ := by
        rw [hE_curo, hdf.2.2.2.1]
        decide
      have htrace := processTrace_pending_fire ds [] d _ ⟨o, ho⟩
        (getInterlockDelayMs (getType e ⟨o, ho⟩)) 0
        hD1 (by omega) hE_delay hE_q hdf.2.1 (by omega) (by omega) (by omega) hE_chg
      rw [hHC]
      simp only [Option.map_some']
      rw [htrace.1, hdf.2.2.1, hE_type, hdf.2.2.2.1]
      rfl
  · intro hcurp hcuro
    have hHC := handleCommand_interlock_on_partner_off e r o p ho hp hil hne hntimer hcurp
    have hneo : e.current ⟨o, ho⟩ ≠ RELAY_ON := by rw [hcuro]; decide
    have hu := updateCore_changed e r ⟨o, ho⟩ RELAY_ON hneo
    have huf := updateCore_frame e r ⟨o, ho⟩ RELAY_ON
    refine ⟨?_, ?_⟩
    · rw [hHC]
      simp only [Option.map_some']
      rw [hu.1]
    · rw [hHC]
      simp only [Option.map_some']
      rw [hu.2.2, huf.2.2.2.2.1]
      rfl

theorem interlock_on_command_witness :
    (eRelayPair.current 1 = RELAY_ON →
      (handleCommand eRelayPair 70 0 RELAY_ON).map (fun x => x.2) =
        some [⟨70, 1, getType eRelayPair 1, RELAY_OFF⟩] ∧
      (handleCommand eRelayPair 70 0 RELAY_ON).map
          (fun x => (x.1.current 1, x.1.delayTime 0, x.1.next 0, x.1.eventTime 0)) =
        some (RELAY_OFF, getInterlockDelayMs (getType eRelayPair 0), RELAY_ON, 0) ∧
      (handleCommand eRelayPair 70 0 RELAY_ON).map (fun x => (processTrace x.1 [499]).2) =
        some [] ∧
      (eRelayPair.current 0 = RELAY_OFF →
        (handleCommand eRelayPair 70 0 RELAY_ON).map
            (fun x => (processTrace x.1 ([499] ++ 2 :: [])).2) =
          some [⟨70 % 64, 0, getType eRelayPair 0, RELAY_ON⟩])) ∧
    (eRelayPair.current 1 = RELAY_OFF → eRelayPair.current 0 = RELAY_OFF →
      (handleCommand eRelayPair 70 0 RELAY_ON).map (fun x => x.2) =
        some [⟨70, 0, getType eRelayPair 0, RELAY_ON⟩] ∧
      (handleCommand eRelayPair 70 0 RELAY_ON).map
          (fun x => (x.1.current 0, x.1.delayTime 0)) =
        some (RELAY_ON, eRelayPair.delayTime 0)) :=
  interlock_on_command eRelayPair 70 0 1 [499] 2 (by omega) (by omega) (by decide)
    (by omega) (by decide) (fun j hj => rfl) (by omega) (by decide) (by decide)

end OXRS_Output

/-! ### Claim theorems about the configuration setters (both engines) -/

theorem and_mask_or_shift_high (x v i : Nat) (hx : x < 65536) (hi : 16 ≤ i) :
    ((x &&& (65535 ^^^ ((1 <<< i) &&& 65535))) ||| (v <<< i)) &&& 65535 = x := by
  have h65535 : (65535 : Nat) = 2 ^ 16 - 1 := by norm_num
  apply Nat.eq_of_testBit_eq
  intro k
  simp only [Nat.testBit_and, Nat.testBit_or, Nat.testBit_xor, Nat.testBit_shiftLeft, h65535,
    Nat.testBit_two_pow_sub_one]
  by_cases hk : k < 16
  · have hik : ¬ i ≤ k := by omega
    simp [hk, hik]
  · have hxk : x.testBit k = false := Nat.testBit_lt_two_pow (by
      calc x < 65536 := hx
      _ = 2 ^ 16 := by norm_num
      _ ≤ 2 ^ k := Nat.pow_le_pow_right (by norm_num) (by omega))
    simp [hk, hxk]

/-- C8 (amended: none of the setters validates its channel index against the
channel count 16.  For an out-of-range index, the Output engine's `setType`,
`setInterlock` and `setTimer` and the Input engine's `setType` write outside
their fixed-size arrays — undefined behaviour, modelled as `none` — instead
of leaving configuration and state unchanged; only the Input engine's
`setInvert` and `setDisabled` happen to leave everything unchanged for
indices 16..31, because the shifted bit mask truncates to the 16-bit member,
not because the index is validated). -/
theorem setters_unchecked (eo : OXRS_Output.OutputEngine) (ei : OXRS_Input.InputEngine)
    (i v : Nat) (hi : 16 ≤ i) :
    OXRS_Output.setType eo i v = none ∧
    OXRS_Output.setInterlock eo i v = none ∧
    OXRS_Output.setTimer eo i v = none ∧
    OXRS_Input.setType ei i v = none ∧
    (i < 32 → ei.invertBits < 65536 → OXRS_Input.setInvert ei i v = some ei) ∧
    (i < 32 → ei.disabledBits < 65536 → OXRS_Input.setDisabled ei i v = some ei) := by
  refine ⟨?_, ?_, ?_, ?_, ?_, ?_⟩
  · unfold OXRS_Output.setType
    rw [dif_neg (by omega)]
  · unfold OXRS_Output.setInterlock
    rw [dif_neg (by omega)]
  · unfold OXRS_Output.setTimer
    rw [dif_neg (by omega)]
  · unfold OXRS_Input.setType
    rw [dif_neg (by omega)]
  · intro h32 hlt
    unfold OXRS_Input.setInvert
    rw [if_pos h32]
    dsimp only
    rw [and_mask_or_shift_high ei.invertBits v i hlt hi]
  · intro h32 hlt
    unfold OXRS_Input.setDisabled
    rw [if_pos h32]
    dsimp only
    rw [and_mask_or_shift_high ei.disabledBits v i hlt hi]

theorem setters_unchecked_witness :
    OXRS_Output.setType OXRS_Output.eRelayPair 20 1 = none ∧
    OXRS_Output.setInterlock OXRS_Output.eRelayPair 20 1 = none ∧
    OXRS_Output.setTimer OXRS_Output.eRelayPair 20 1 = none ∧
    OXRS_Input.setType OXRS_Input.eIn0 20 1 = none ∧
    (20 < 32 → OXRS_Input.eIn0.invertBits < 65536 →
      OXRS_Input.setInvert OXRS_Input.eIn0 20 1 = some OXRS_Input.eIn0) ∧
    (20 < 32 → OXRS_Input.eIn0.disabledBits < 65536 →
      OXRS_Input.setDisabled OXRS_Input.eIn0 20 1 = some OXRS_Input.eIn0) :=
  setters_unchecked OXRS_Output.eRelayPair OXRS_Input.eIn0 20 1 (by omega)

/-- C8 counterexample: a call with channel index 16 (one past the last valid
channel) does not return the configuration unchanged — it is an unchecked
out-of-bounds write (undefined behaviour, `none` in this model), refuting
"validates its channel index … leaves all configuration and state
unchanged". -/
theorem setter_out_of_range_cex :
    OXRS_Output.setInterlock OXRS_Output.eRelayPair 16 3 = none ∧
    OXRS_Output.setType OXRS_Output.eRelayPair 16 OXRS_Output.TIMER = none ∧
    OXRS_Input.setType OXRS_Input.eIn0 16 OXRS_Input.BUTTON = none := by
  refine ⟨rfl, rfl, rfl⟩

namespace OXRS_Input

/-! ### Claim theorems for the Input Event Engine -/

/-- C9 counterexample: the AWAIT_MULTI → IS_HIGH timeout transition — the
one that emits the accumulated multi-click count — does not reset the
elapsed-time accumulator: with the window expired at 201ms the channel
transitions to IS_HIGH and reports one click, but `_eventTime` stays 201. -/
theorem await_multi_timeout_keeps_event_time :
    (stepSwitch BUTTON ⟨AWAIT_MULTI, 1, 0⟩ 201 true).1.state = IS_HIGH ∧
    (stepSwitch BUTTON ⟨AWAIT_MULTI, 1, 0⟩ 201 true).2 = 1 ∧
    (stepSwitch BUTTON ⟨AWAIT_MULTI, 1, 0⟩ 201 true).1.eventTime = 201 := by
  decide

set_option maxHeartbeats 1600000 in
/-- C9 (amended: every transition of the debounce state machine except the
AWAIT_MULTI → IS_HIGH multi-click timeout resets the channel's elapsed-time
accumulator to 0; that one transition leaves the accumulator at its
incremented value — harmless, since IS_HIGH never reads it and every exit
from IS_HIGH resets it again). -/
theorem transition_resets_event_time (ty s c t d : Nat) (v : Bool) (hs : s < 5)
    (hchg : (stepSwitch ty ⟨s, c, t⟩ d v).1.state ≠ s) :
    (s = AWAIT_MULTI ∧ (stepSwitch ty ⟨s, c, t⟩ d v).1.state = IS_HIGH ∧
      (stepSwitch ty ⟨s, c, t⟩ d v).1.eventTime = (t + d) % 65536) ∨
    (stepSwitch ty ⟨s, c, t⟩ d v).1.eventTime = 0 := by
  interval_cases s <;>
    simp only [stepSwitch, IS_HIGH, DEBOUNCE_LOW, IS_LOW, DEBOUNCE_HIGH, AWAIT_MULTI,
      HOLD_EVENT, BUTTON, PRESS, BUTTON_HOLD_MS, BUTTON_MULTI_CLICK_MS,
      BUTTON_MAX_CLICKS] at hchg ⊢ <;>
    split_ifs at hchg ⊢ <;> simp_all

theorem transition_resets_event_time_witness :
    (0 = AWAIT_MULTI ∧ (stepSwitch BUTTON ⟨0, 0, 0⟩ 1 false).1.state = IS_HIGH ∧
      (stepSwitch BUTTON ⟨0, 0, 0⟩ 1 false).1.eventTime = (0 + 1) % 65536) ∨
    (stepSwitch BUTTON ⟨0, 0, 0⟩ 1 false).1.eventTime = 0 :=
  transition_resets_event_time BUTTON 0 0 0 1 false (by omega) (by decide)

theorem getSecurityEvent_ne_no_event (s : Nat) : getSecurityEvent s ≠ NO_EVENT := by
  unfold getSecurityEvent
  split_ifs <;> decide

/-- C5: the four literal 4-wire patterns (CH1..CH4 as raw bits, 1 = HIGH)
classify as NORMAL (1010, reported as HIGH_EVENT), ALARM (1000, LOW_EVENT),
TAMPER (0100, TAMPER_EVENT) and SHORT (1011, SHORT_EVENT); every other
pattern classifies as FAULT (FAULT_EVENT); the invert flag of the group's
4th channel swaps exactly the NORMAL and ALARM classifications and nothing
else; and a quad step emits an event if and only if the classified state
differs from the stored one — a stable pattern is silent. -/
theorem security_classification :
    (∀ inv : Bool, getSecurityState true false true false inv =
      (if inv then IS_LOW else IS_HIGH)) ∧
    (∀ inv : Bool, getSecurityState true false false false inv =
      (if inv then IS_HIGH else IS_LOW)) ∧
    (∀ inv : Bool, getSecurityState false true false false inv = DEBOUNCE_LOW) ∧
    (∀ inv : Bool, getSecurityState true false true true inv = DEBOUNCE_HIGH) ∧
    getSecurityEvent IS_HIGH = HIGH_EVENT ∧
    getSecurityEvent IS_LOW = LOW_EVENT ∧
    getSecurityEvent DEBOUNCE_LOW = TAMPER_EVENT ∧
    getSecurityEvent DEBOUNCE_HIGH = SHORT_EVENT ∧
    getSecurityEvent AWAIT_MULTI = FAULT_EVENT ∧
    (∀ (b1 b2 b3 b4 inv : Bool),
      (b1, b2, b3, b4) ≠ (true, false, true, false) →
      (b1, b2, b3, b4) ≠ (true, false, false, false) →
      (b1, b2, b3, b4) ≠ (false, true, false, false) →
      (b1, b2, b3, b4) ≠ (true, false, true, true) →
      getSecurityState b1 b2 b3 b4 inv = AWAIT_MULTI ∧
        getSecurityEvent (getSecurityState b1 b2 b3 b4 inv) = FAULT_EVENT) ∧
    (∀ (b1 b2 b3 b4 : Bool),
      getSecurityState b1 b2 b3 b4 true =
        (if getSecurityState b1 b2 b3 b4 false = IS_HIGH then IS_LOW
         else if getSecurityState b1 b2 b3 b4 false = IS_LOW then IS_HIGH
         else getSecurityState b1 b2 b3 b4 false)) ∧
    (∀ (prev : Nat) (b1 b2 b3 b4 inv : Bool),
      (securityQuadStep prev b1 b2 b3 b4 inv).2 ≠ NO_EVENT ↔
        getSecurityState b1 b2 b3 b4 inv ≠ prev) := by
  refine ⟨by decide, by decide, by decide, by decide, by decide, by decide, by decide,
    by decide, by decide, by decide, by decide, ?_⟩
  intro prev b1 b2 b3 b4 inv
  unfold securityQuadStep
  dsimp only
  by_cases h : prev = getSecurityState b1 b2 b3 b4 inv
  · rw [if_neg (by simp [h])]
    simp [h]
  · rw [if_pos h]
    exact ⟨fun _ hx => h hx.symm, fun _ => getSecurityEvent_ne_no_event _⟩

theorem security_classification_witness :
    (getSecurityState false false false false true = AWAIT_MULTI ∧
      getSecurityEvent (getSecurityState false false false false true) = FAULT_EVENT) ∧
    ((securityQuadStep IS_HIGH true false false false false).2 ≠ NO_EVENT ↔
      getSecurityState true false false false false ≠ IS_HIGH) :=
  ⟨security_classification.2.2.2.2.2.2.2.2.2.1 false false false false true
      (by decide) (by decide) (by decide) (by decide),
   security_classification.2.2.2.2.2.2.2.2.2.2.2 IS_HIGH true false false false false⟩

/-- C6: feeding a rotary pair's effective Gray-code samples through a full
clockwise detent (encoder inputs 1, 0, 2, 3 from START) yields exactly one
LOW_EVENT; the reverse, counter-clockwise detent (inputs 2, 0, 1, 3) yields
exactly one HIGH_EVENT; the only transitions of the table that emit any
event are the two detent completions out of CW_FINAL/CCW_FINAL on input 3
(both landing on START), so any bounce sequence that returns the decoder to
START mid-detent emits nothing. -/
theorem rotary_detent_events :
    (rotaryTrace ROT_START
        [(true, false), (false, false), (false, true), (true, true)]).2.filter
        (fun ev => ev != NO_EVENT) = [LOW_EVENT] ∧
    (rotaryTrace ROT_START
        [(false, true), (false, false), (true, false), (true, true)]).2.filter
        (fun ev => ev != NO_EVENT) = [HIGH_EVENT] ∧
    (∀ s e, s < 7 → e < 4 → rotaryEventTbl s e ≠ NO_EVENT →
      ((s = ROT_CW_FINAL ∧ e = 3 ∧ rotaryState s e = ROT_START ∧
          rotaryEventTbl s e = LOW_EVENT) ∨
       (s = ROT_CCW_FINAL ∧ e = 3 ∧ rotaryState s e = ROT_START ∧
          rotaryEventTbl s e = HIGH_EVENT))) ∧
    (∀ s e, s < 7 → e < 4 → rotaryState s e = ROT_START →
      ¬(s = ROT_CW_FINAL ∧ e = 3) → ¬(s = ROT_CCW_FINAL ∧ e = 3) →
      rotaryEventTbl s e = NO_EVENT) := by
  refine ⟨by decide, by decide, ?_, ?_⟩
  · intro s e hs he
    interval_cases s <;> interval_cases e <;> decide
  · intro s e hs he
    interval_cases s <;> interval_cases e <;> decide

theorem stepSwitch_high_press (c0 t0 d : Nat) :
    stepSwitch BUTTON ⟨IS_HIGH, c0, t0⟩ d false = (⟨DEBOUNCE_LOW, 0, 0⟩, NO_EVENT) := by
  simp [stepSwitch, IS_HIGH, DEBOUNCE_LOW, IS_LOW, DEBOUNCE_HIGH, AWAIT_MULTI]

theorem stepSwitch_debounce_done (c p : Nat) (hp1 : 15 < p) (hp2 : p < 65536) :
    stepSwitch BUTTON ⟨DEBOUNCE_LOW, c, 0⟩ p false = (⟨IS_LOW, c, 0⟩, NO_EVENT) := by
  simp [stepSwitch, IS_HIGH, DEBOUNCE_LOW, IS_LOW, DEBOUNCE_HIGH, AWAIT_MULTI, BUTTON,
    getDebounceLowTime, BUTTON_DEBOUNCE_LOW_MS, Nat.mod_eq_of_lt hp2, hp1]

theorem stepSwitch_low_release (c t0 d : Nat) :
    stepSwitch BUTTON ⟨IS_LOW, c, t0⟩ d true = (⟨DEBOUNCE_HIGH, c, 0⟩, NO_EVENT) := by
  simp [stepSwitch, IS_HIGH, DEBOUNCE_LOW, IS_LOW, DEBOUNCE_HIGH, AWAIT_MULTI]

theorem stepSwitch_release_click (c q : Nat) (hq1 : 30 < q) (hq2 : q < 65536)
    (hc : c ≠ HOLD_EVENT) :
    stepSwitch BUTTON ⟨DEBOUNCE_HIGH, c, 0⟩ q true =
      (⟨AWAIT_MULTI, min BUTTON_MAX_CLICKS (c + 1), 0⟩, NO_EVENT) := by
  simp [stepSwitch, IS_HIGH, DEBOUNCE_LOW, IS_LOW, DEBOUNCE_HIGH, AWAIT_MULTI, BUTTON,
    getDebounceHighTime, BUTTON_DEBOUNCE_HIGH_MS, Nat.mod_eq_of_lt hq2, hq1, hc]

theorem stepSwitch_release_after_hold (q : Nat) (hq1 : 30 < q) (hq2 : q < 65536) :
    stepSwitch BUTTON ⟨DEBOUNCE_HIGH, HOLD_EVENT, 0⟩ q true =
      (⟨IS_HIGH, HOLD_EVENT, 0⟩, RELEASE_EVENT) := by
  simp [stepSwitch, IS_HIGH, DEBOUNCE_LOW, IS_LOW, DEBOUNCE_HIGH, AWAIT_MULTI, BUTTON,
    getDebounceHighTime, BUTTON_DEBOUNCE_HIGH_MS, Nat.mod_eq_of_lt hq2, hq1]

theorem stepSwitch_await_press (c t0 d : Nat) :
    stepSwitch BUTTON ⟨AWAIT_MULTI, c, t0⟩ d false = (⟨DEBOUNCE_LOW, c, 0⟩, NO_EVENT) := by
  simp [stepSwitch, IS_HIGH, DEBOUNCE_LOW, IS_LOW, DEBOUNCE_HIGH, AWAIT_MULTI]

theorem stepSwitch_await_timeout (c t : Nat) (ht1 : 200 < t) (ht2 : t < 65536) :
    stepSwitch BUTTON ⟨AWAIT_MULTI, c, 0⟩ t true = (⟨IS_HIGH, c, t⟩, c) := by
  simp [stepSwitch, IS_HIGH, DEBOUNCE_LOW, IS_LOW, DEBOUNCE_HIGH, AWAIT_MULTI,
    BUTTON_MULTI_CLICK_MS, Nat.mod_eq_of_lt ht2, ht1]

theorem stepSwitch_hold_onset (c h : Nat) (hh1 : 500 < h) (hh2 : h < 65536)
    (hc : c ≠ HOLD_EVENT) :
    stepSwitch BUTTON ⟨IS_LOW, c, 0⟩ h false = (⟨IS_LOW, HOLD_EVENT, h⟩, HOLD_EVENT) := by
  simp [stepSwitch, IS_HIGH, DEBOUNCE_LOW, IS_LOW, DEBOUNCE_HIGH, AWAIT_MULTI, BUTTON,
    BUTTON_HOLD_MS, Nat.mod_eq_of_lt hh2, hh1, hc]

theorem stepSwitch_holding (t0 d : Nat) :
    stepSwitch BUTTON ⟨IS_LOW, HOLD_EVENT, t0⟩ d false =
      (⟨IS_LOW, HOLD_EVENT, (t0 + d) % 65536⟩, NO_EVENT) := by
  simp [stepSwitch, IS_HIGH, DEBOUNCE_LOW, IS_LOW, DEBOUNCE_HIGH, AWAIT_MULTI]

theorem clickPress_from_await (c g p q : Nat) (hp1 : 15 < p) (hp2 : p < 65536)
    (hq1 : 30 < q) (hq2 : q < 65536) (hc : c ≤ 5) :
    stepTrace BUTTON ⟨AWAIT_MULTI, c, 0⟩ (clickPress g p q) =
      (⟨AWAIT_MULTI, min BUTTON_MAX_CLICKS (c + 1), 0⟩, [0, 0, 0, 0]) := by
  have hch : c ≠ HOLD_EVENT := by unfold HOLD_EVENT; omega
  simp [clickPress, stepTrace, stepSwitch_await_press, stepSwitch_debounce_done c p hp1 hp2,
    stepSwitch_low_release, stepSwitch_release_click c q hq1 hq2 hch, NO_EVENT]

theorem clickPress_from_high (c0 t0 a p q : Nat) (hp1 : 15 < p) (hp2 : p < 65536)
    (hq1 : 30 < q) (hq2 : q < 65536) :
    stepTrace BUTTON ⟨IS_HIGH, c0, t0⟩ (clickPress a p q) =
      (⟨AWAIT_MULTI, 1, 0⟩, [0, 0, 0, 0]) := by
  have hch : (0 : Nat) ≠ HOLD_EVENT := by unfold HOLD_EVENT; omega
  simp [clickPress, stepTrace, stepSwitch_high_press, stepSwitch_debounce_done 0 p hp1 hp2,
    stepSwitch_low_release, stepSwitch_release_click 0 q hq1 hq2 hch, NO_EVENT,
    BUTTON_MAX_CLICKS]

theorem clickCycles_from_await (p q : Nat) (gs : List Nat) (c : Nat)
    (hp1 : 15 < p) (hp2 : p < 65536) (hq1 : 30 < q) (hq2 : q < 65536)
    (hc1 : 1 ≤ c) (hc5 : c ≤ 5) :
    stepTrace BUTTON ⟨AWAIT_MULTI, c, 0⟩ (clickCycles p q gs) =
      (⟨AWAIT_MULTI, min 5 (c + gs.length), 0⟩, List.replicate (4 * gs.length) 0) := by
  induction gs generalizing c with
  | nil =>
    simp [clickCycles, stepTrace]
    omega
  | cons g gs ih =>
    have hstep := clickPress_from_await c g p q hp1 hp2 hq1 hq2 hc5
    have hc1b : 1 ≤ min BUTTON_MAX_CLICKS (c + 1) := by unfold BUTTON_MAX_CLICKS; omega
    have hc5b : min BUTTON_MAX_CLICKS (c + 1) ≤ 5 := by unfold BUTTON_MAX_CLICKS; omega
    have hi := ih (min BUTTON_MAX_CLICKS (c + 1)) hc1b hc5b
    have hmin : min 5 (min BUTTON_MAX_CLICKS (c + 1) + gs.length) =
        min 5 (c + (gs.length + 1)) := by unfold BUTTON_MAX_CLICKS; omega
    have hrep : (4 : Nat) * (gs.length + 1) = 4 + 4 * gs.length := by omega
    show stepTrace BUTTON ⟨AWAIT_MULTI, c, 0⟩ (clickPress g p q ++ clickCycles p q gs) = _
    rw [stepTrace_append, hstep]
    dsimp only
    rw [hi, hmin, List.length_cons, hrep, List.replicate_add]
    rfl

theorem filter_replicate_zero (n : Nat) :
    (List.replicate n (0 : Nat)).filter (fun ev => ev != 0) = [] := by
  induction n with
  | zero => rfl
  | succ n ih => simp [List.replicate_succ, ih]

/-- C3: starting from the stable-inactive state, a button channel driven
through `gs.length + 1` press/release cycles — the first press after an
arbitrary idle time, each later press arriving `g ≤ 200` ms after the
previous debounced release — produces no event during the cycles and exactly
one event when the 200ms multi-click window finally expires, whose code is
`min(N, 5)` for `N = gs.length + 1` cycles (the per-cycle press and release
are debounced by ticks of `p > 15` ms and `q > 30` ms, the expiry by a quiet
tick of `t > 200` ms; `process` delivers one callback per nonzero event
entry, so the filtered event list below is exactly the callback stream). -/
theorem button_multi_click (a p q t e0 c0 : Nat) (gs : List Nat)
    (hp1 : 15 < p) (hp2 : p < 65536) (hq1 : 30 < q) (hq2 : q < 65536)
    (hg : ∀ g ∈ gs, g ≤ BUTTON_MULTI_CLICK_MS)
    (ht1 : 200 < t) (ht2 : t < 65536) :
    (stepTrace BUTTON ⟨IS_HIGH, c0, e0⟩ (multiClickTrace a p q t gs)).2.filter
        (fun ev => ev != NO_EVENT) = [min (gs.length + 1) BUTTON_MAX_CLICKS] := by
  have h1 := clickPress_from_high c0 e0 a p q hp1 hp2 hq1 hq2
  have h2 := clickCycles_from_await p q gs 1 hp1 hp2 hq1 hq2 (by omega) (by omega)
  have h3 := stepSwitch_await_timeout (min 5 (1 + gs.length)) t ht1 ht2
  have hpos : 1 ≤ min 5 (1 + gs.length) := by omega
  unfold multiClickTrace
  rw [stepTrace_append, h1]
  dsimp only
  rw [stepTrace_append, h2]
  dsimp only
  have hlast : stepTrace BUTTON ⟨AWAIT_MULTI, min 5 (1 + gs.length), 0⟩ [(t, true)] =
      (⟨IS_HIGH, min 5 (1 + gs.length), t⟩, [min 5 (1 + gs.length)]) := by
    simp [stepTrace, h3]
  rw [hlast]
  dsimp only
  have hmin : min 5 (1 + gs.length) = min (gs.length + 1) BUTTON_MAX_CLICKS := by
    unfold BUTTON_MAX_CLICKS
    omega
  have hne : (min 5 (1 + gs.length) != 0) = true := by
    simp only [bne_iff_ne, ne_eq]
    omega
  simp [List.filter_append, filter_replicate_zero, NO_EVENT, hmin, hne]
  decide

theorem hold_continuation (ds : List Nat) (t0 : Nat) :
    ∃ t1, stepTrace BUTTON ⟨IS_LOW, HOLD_EVENT, t0⟩ (ds.map (fun d => (d, false))) =
      (⟨IS_LOW, HOLD_EVENT, t1⟩, List.replicate ds.length 0) := by
  induction ds generalizing t0 with
  | nil => exact ⟨t0, rfl⟩
  | cons d rest ih =>
    obtain ⟨t1, hrec⟩ := ih ((t0 + d) % 65536)
    refine ⟨t1, ?_⟩
    simp [stepTrace, stepSwitch_holding, hrec, List.replicate_succ, NO_EVENT]

/-- C4: holding a button continuously active beyond 500ms emits HOLD_EVENT
exactly once — the pressed continuation ticks `ds` of arbitrary length and
spacing emit nothing further — and the debounced release then emits exactly
one RELEASE_EVENT; no click-count event (codes 1..5) occurs anywhere in the
press/hold/release cycle, as the filtered event stream is exactly
`[HOLD_EVENT, RELEASE_EVENT]`. -/
theorem button_hold_release (p h q e0 c0 : Nat) (ds : List Nat)
    (hp1 : 15 < p) (hp2 : p < 65536) (hh1 : 500 < h) (hh2 : h < 65536)
    (hq1 : 30 < q) (hq2 : q < 65536) :
    (stepTrace BUTTON ⟨IS_HIGH, c0, e0⟩ (holdTrace p h q ds)).2.filter
        (fun ev => ev != NO_EVENT) = [HOLD_EVENT, RELEASE_EVENT] := by
  obtain ⟨t1, hcont⟩ := hold_continuation ds h
  have hzero : (0 : Nat) ≠ HOLD_EVENT := by unfold HOLD_EVENT; omega
  have hlast : stepTrace BUTTON ⟨IS_LOW, HOLD_EVENT, t1⟩ [(1, true), (q, true)] =
      (⟨IS_HIGH, HOLD_EVENT, 0⟩, [0, RELEASE_EVENT]) := by
    simp [stepTrace, stepSwitch_low_release, stepSwitch_release_after_hold q hq1 hq2, NO_EVENT]
  unfold holdTrace
  simp only [stepTrace, stepSwitch_high_press, stepSwitch_debounce_done 0 p hp1 hp2,
    stepSwitch_hold_onset 0 h hh1 hh2 hzero]
  rw [stepTrace_append, hcont]
  dsimp only
  rw [hlast]
  dsimp only
  simp [List.filter_append, filter_replicate_zero, NO_EVENT, HOLD_EVENT, RELEASE_EVENT]

theorem button_multi_click_witness :
    (stepTrace BUTTON ⟨IS_HIGH, 0, 0⟩ (multiClickTrace 1 16 31 201 [])).2.filter
        (fun ev => ev != NO_EVENT) = [1] :=
  button_multi_click 1 16 31 201 0 0 [] (by omega) (by omega) (by omega) (by omega)
    (by simp) (by omega) (by omega)

theorem button_hold_release_witness :
    (stepTrace BUTTON ⟨IS_HIGH, 0, 0⟩ (holdTrace 16 501 31 [])).2.filter
        (fun ev => ev != NO_EVENT) = [HOLD_EVENT, RELEASE_EVENT] :=
  button_hold_release 16 501 31 0 0 [] (by omega) (by omega) (by omega) (by omega)
    (by omega) (by omega)

theorem rotary_detent_events_witness :
    ((1 : Nat) = ROT_CW_FINAL ∧ (3 : Nat) = 3 ∧ rotaryState 1 3 = ROT_START ∧
        rotaryEventTbl 1 3 = LOW_EVENT) ∨
    ((1 : Nat) = ROT_CCW_FINAL ∧ (3 : Nat) = 3 ∧ rotaryState 1 3 = ROT_START ∧
        rotaryEventTbl 1 3 = HIGH_EVENT) :=
  rotary_detent_events.2.2.1 1 3 (by omega) (by omega) (by decide)

end OXRS_Input
